import Mathlib

/-!
Verification development for the libliftoff (Raspberry Pi fork) plane
allocation engine.  The C sources under src/ are shallowly embedded as
executable Lean definitions: machine integers become Nat (with explicit
two-complement conversion where the C code casts uint64_t to int),
pointers become indices, intrusive lists become List, and the DRM kernel
boundary (atomic test commits, framebuffer queries) becomes explicit
oracle parameters.  Purely diagnostic state (logging, the candidate-plane
memo, the test-commit and reuse counters) is omitted; it is never read by
the code paths under verification.
-/

set_option autoImplicit false

namespace Liftoff

/-- Interpretation of the low 32 bits of a natural number in
two-complement, modelling the C cast of a uint64_t (or size_t) value
to int. -/
def toInt32 (v : Nat) : Int :=
  let r : Nat := v % 2 ^ 32
  if r < 2 ^ 31 then (r : Int) else (r : Int) - 2 ^ 32

/-- Interpretation of the low 64 bits in two-complement, modelling the C
cast of uint64_t to int64_t. -/
def toInt64 (v : Nat) : Int :=
  let r : Nat := v % 2 ^ 64
  if r < 2 ^ 63 then (r : Int) else (r : Int) - 2 ^ 64

/-! Property name enumeration from include/libliftoff_rpi.h. -/

def PROP_TYPE : Nat := 1
def PROP_FB_ID : Nat := 2
def PROP_CRTC_ID : Nat := 3
def PROP_CRTC_X : Nat := 4
def PROP_CRTC_Y : Nat := 5
def PROP_CRTC_W : Nat := 6
def PROP_CRTC_H : Nat := 7
def PROP_SRC_X : Nat := 8
def PROP_SRC_Y : Nat := 9
def PROP_SRC_W : Nat := 10
def PROP_SRC_H : Nat := 11
def PROP_ZPOS : Nat := 12
def PROP_ALPHA : Nat := 13
def PROP_ROTATION : Nat := 14
def PROP_SCALING_FILTER : Nat := 15
def PROP_PIXEL_BLEND_MODE : Nat := 16
def PROP_FB_DAMAGE_CLIPS : Nat := 17
def PROP_IN_FENCE_FD : Nat := 18
def PROP_IN_FORMATS : Nat := 19

/-! DRM constants (from the libdrm and kernel uapi headers). -/

def DRM_PLANE_TYPE_OVERLAY : Nat := 0
def DRM_PLANE_TYPE_PRIMARY : Nat := 1
def DRM_PLANE_TYPE_CURSOR : Nat := 2

def DRM_MODE_PROP_RANGE : Nat := 0x2
def DRM_MODE_PROP_IMMUTABLE : Nat := 0x4
def DRM_MODE_PROP_ENUM : Nat := 0x8
def DRM_MODE_PROP_BITMASK : Nat := 0x20
/-- DRM_MODE_PROP_TYPE(2): the extended signed-range property type. -/
def DRM_MODE_PROP_SIGNED_RANGE : Nat := 0x80
/-- DRM_MODE_PROP_LEGACY_TYPE together with DRM_MODE_PROP_EXTENDED_TYPE:
the mask that drmModeGetPropertyType applies to the flags. -/
def DRM_MODE_PROP_TYPE_MASK : Nat := 0xfffa
def DRM_MODE_FB_MODIFIERS : Nat := 2
def DRM_MODE_ROTATE_0 : Nat := 1

def EINVAL : Int := 22
def ERANGE : Int := 34
def ENOSPC : Int := 28

/-- drmModeFB2 as cached in layer fb_info (the fields the engine reads). -/
structure FBInfo where
  fb_id : Nat
  width : Nat
  height : Nat
  pixel_format : Nat
  modifier : Nat
  flags : Nat
  deriving DecidableEq, Repr

/-- The all-zero drmModeFB2, result of memset to 0. -/
def FBInfo.zero : FBInfo := ⟨0, 0, 0, 0, 0, 0⟩

/-- struct liftoff_rpi_property as stored on a layer: the liftoff property
index together with the current value and the previous (last-clean)
value. -/
structure PropVal where
  index : Nat
  value : Nat
  prev_value : Nat
  deriving DecidableEq, Repr

/-- drmModePropertyRes metadata of a plane property: flags, the values
array (two entries for ranges) and the enum values. -/
structure DProp where
  flags : Nat
  values : List Nat
  enums : List Nat
  deriving DecidableEq, Repr

/-- struct liftoff_rpi_property as stored on a plane: liftoff index, DRM
object id and DRM metadata. -/
structure PlaneProp where
  index : Nat
  id : Nat
  dprop : DProp
  deriving DecidableEq, Repr

/-- One struct drm_format_modifier entry of an IN_FORMATS blob. -/
structure FormatModifier where
  formats : Nat
  offset : Nat
  modifier : Nat
  deriving DecidableEq, Repr

/-- The decoded IN_FORMATS blob (struct drm_format_modifier_blob): the
format array and the modifier array located at the blob offsets. -/
structure InFormats where
  formats : List Nat
  modifiers : List FormatModifier
  deriving DecidableEq, Repr

/-- struct liftoff_rpi_layer.  The bound plane is an index into the plane
list of the device; layers are identified by their position in the layer
list of their output. -/
structure Layer where
  props : List PropVal
  force_comp : Bool
  changed : Bool
  fb_info : FBInfo
  prev_fb_info : FBInfo
  plane : Option Nat
  current_priority : Int
  pending_priority : Int
  deriving DecidableEq, Repr

/-- struct liftoff_rpi_plane.  The bound layer is an index into the layer
list of the output under consideration. -/
structure Plane where
  id : Nat
  type : Nat
  zpos : Int
  possible_crtcs : Nat
  layer : Option Nat
  props : List PlaneProp
  in_formats_blob : Option InFormats
  deriving DecidableEq, Repr

/-- An atomic request is the list of staged (object id, property id, value)
triples; the cursor of drmModeAtomicGetCursor is the list length and
drmModeAtomicSetCursor truncates. -/
abbrev Req := List (Nat × Nat × Nat)

/-- List of elements paired with their positions, starting at a given
index (used wherever the C code iterates a list while keeping a counter). -/
def withIdx {α : Type} : Nat → List α → List (Nat × α)
  | _, [] => []
  | i, x :: xs => (i, x) :: withIdx (i + 1) xs

/-! ### layer.c -/

/-- layer_property_get: first property with the given index. -/
def layer_property_get (layer : Layer) (prop : Nat) : Option PropVal :=
  layer.props.find? (fun p => p.index == prop)

/-- layer_fb_get. -/
def layer_fb_get (layer : Layer) : Bool :=
  match layer_property_get layer PROP_FB_ID with
  | none => false
  | some fb => fb.value != 0

/-- layer_visible_get. -/
def layer_visible_get (layer : Layer) : Bool :=
  match layer_property_get layer PROP_ALPHA with
  | some prop =>
      if prop.value == 0 then false
      else if layer.force_comp then true else layer_fb_get layer
  | none =>
      if layer.force_comp then true else layer_fb_get layer

/-- struct liftoff_rpi_rect (fields are C int). -/
structure Rect where
  x : Int
  y : Int
  w : Int
  h : Int
  deriving DecidableEq, Repr

/-- layer_rect_get: missing coordinates default to 0; property values are
uint64_t assigned to int fields. -/
def layer_rect_get (layer : Layer) : Rect :=
  { x := (layer_property_get layer PROP_CRTC_X).elim 0 (fun p => toInt32 p.value)
    y := (layer_property_get layer PROP_CRTC_Y).elim 0 (fun p => toInt32 p.value)
    w := (layer_property_get layer PROP_CRTC_W).elim 0 (fun p => toInt32 p.value)
    h := (layer_property_get layer PROP_CRTC_H).elim 0 (fun p => toInt32 p.value) }

/-- layer_intersects. -/
def layer_intersects (a b : Layer) : Bool :=
  if !(layer_visible_get a) || !(layer_visible_get b) then false
  else
    let ra := layer_rect_get a
    let rb := layer_rect_get b
    decide (ra.x < rb.x + rb.w) && decide (ra.y < rb.y + rb.h) &&
      decide (ra.x + ra.w > rb.x) && decide (ra.y + ra.h > rb.y)

/-- layer_clean. -/
def layer_clean (layer : Layer) : Layer :=
  { layer with
    changed := false
    prev_fb_info := layer.fb_info
    props := layer.props.map (fun p => { p with prev_value := p.value }) }

/-- layer_priority_update. -/
def layer_priority_update (layer : Layer) (current : Bool) : Layer :=
  let layer :=
    match layer_property_get layer PROP_FB_ID with
    | some prop =>
        if prop.prev_value != prop.value then
          { layer with pending_priority := layer.pending_priority + 1 }
        else layer
    | none => layer
  if current then
    { layer with current_priority := layer.pending_priority, pending_priority := 0 }
  else layer

/-- Helper for liftoff_rpi_layer_property_set: overwrite the value of the
first property with the given index (the one layer_property_get
returns). -/
def props_value_set : List PropVal → Nat → Nat → List PropVal
  | [], _, _ => []
  | p :: ps, index, value =>
      if p.index == index then { p with value := value } :: ps
      else p :: props_value_set ps index value

/-- liftoff_rpi_layer_property_set.  Returns the error code and the updated
layer.  Allocation failure (-ENOMEM on realloc) is not modelled. -/
def liftoff_rpi_layer_property_set (layer : Layer) (property value : Nat) :
    Int × Layer :=
  if property == PROP_CRTC_ID then (-EINVAL, layer)
  else
    let layer :=
      match layer_property_get layer property with
      | some _ => { layer with props := props_value_set layer.props property value }
      | none =>
          { layer with
            props := layer.props ++ [{ index := property, value := value, prev_value := 0 }]
            changed := true }
    let layer :=
      if property == PROP_FB_ID && layer.force_comp then
        { layer with force_comp := false, changed := true }
      else layer
    (0, layer)

/-! ### output.c: the composition layer -/

/-- State of one output together with the planes of its device.  The engine
is exercised on a single output; planes bound to layers of other outputs
are not modelled. -/
structure OutputState where
  layers : List Layer
  comp_layer : Option Nat
  layers_changed : Bool
  planes : List Plane
  page_flip_counter : Int
  crtc_id : Nat
  crtc_index : Nat
  deriving DecidableEq, Repr

/-- liftoff_rpi_output_composition_layer_set.  The layer argument is an
index into the layer list of this output when it belongs to the output;
belongs = false models a layer whose output field is a different output. -/
def liftoff_rpi_output_composition_layer_set (st : OutputState) (belongs : Bool)
    (li : Nat) : OutputState :=
  if !belongs then st
  else
    let st := if some li != st.comp_layer then { st with layers_changed := true } else st
    { st with comp_layer := some li }

/-! ### C9 and C10 -/

/-- C9: liftoff_rpi_output_composition_layer_set with a layer of a
different output changes nothing; with a layer of this output it installs
the layer as composition layer and raises layers_changed exactly when the
composition layer actually changes, leaving the rest of the state alone. -/
theorem c9_composition_layer_set (st : OutputState) (li : Nat) :
    liftoff_rpi_output_composition_layer_set st false li = st ∧
    (liftoff_rpi_output_composition_layer_set st true li).comp_layer = some li ∧
    (liftoff_rpi_output_composition_layer_set st true li).layers_changed =
      (st.layers_changed || !(st.comp_layer == some li)) ∧
    (liftoff_rpi_output_composition_layer_set st true li).layers = st.layers ∧
    (liftoff_rpi_output_composition_layer_set st true li).planes = st.planes := by
  by_cases h : st.comp_layer = some li
  · refine ⟨rfl, ?_, ?_, ?_, ?_⟩ <;>
      simp [liftoff_rpi_output_composition_layer_set, h]
  · have h2 : some li ≠ st.comp_layer := fun hh => h hh.symm
    refine ⟨rfl, ?_, ?_, ?_, ?_⟩ <;>
      simp [liftoff_rpi_output_composition_layer_set, h, h2]

/-- A concrete sample layer holding a single ALPHA property. -/
def sampleLayerA : Layer :=
  ⟨[⟨PROP_ALPHA, 3, 3⟩], false, false, FBInfo.zero, FBInfo.zero, none, 0, 0⟩

/-- C10: the effect of liftoff_rpi_layer_property_set in one equation per
field.  The changed flag becomes true exactly when the property was absent
or FB_ID is set while force_comp is set (and then force_comp is cleared);
setting a property the layer already holds merely overwrites the stored
value. -/
theorem c10_layer_property_set (layer : Layer) (property value : Nat)
    (hncrtc : property ≠ PROP_CRTC_ID) :
    (liftoff_rpi_layer_property_set layer property value).2.changed =
      (layer.changed || (layer_property_get layer property).isNone ||
        (property == PROP_FB_ID && layer.force_comp)) ∧
    (liftoff_rpi_layer_property_set layer property value).2.force_comp =
      (layer.force_comp && !(property == PROP_FB_ID)) ∧
    (liftoff_rpi_layer_property_set layer property value).2.props =
      (match layer_property_get layer property with
       | some _ => props_value_set layer.props property value
       | none => layer.props ++ [⟨property, value, 0⟩]) := by
  rw [liftoff_rpi_layer_property_set, if_neg (by simp [hncrtc])]
  cases hp : layer_property_get layer property <;>
    by_cases hfb : (property == PROP_FB_ID) = true <;>
      by_cases hfc : layer.force_comp = true <;>
        simp_all

/-- Witness for c10_layer_property_set at the concrete sample layer. -/
theorem c10_layer_property_set_witness :
    PROP_ALPHA ≠ PROP_CRTC_ID ∧
    ((liftoff_rpi_layer_property_set sampleLayerA PROP_ALPHA 9).2.changed =
      (sampleLayerA.changed || (layer_property_get sampleLayerA PROP_ALPHA).isNone ||
        (PROP_ALPHA == PROP_FB_ID && sampleLayerA.force_comp)) ∧
     (liftoff_rpi_layer_property_set sampleLayerA PROP_ALPHA 9).2.force_comp =
      (sampleLayerA.force_comp && !(PROP_ALPHA == PROP_FB_ID)) ∧
     (liftoff_rpi_layer_property_set sampleLayerA PROP_ALPHA 9).2.props =
      (match layer_property_get sampleLayerA PROP_ALPHA with
       | some _ => props_value_set sampleLayerA.props PROP_ALPHA 9
       | none => sampleLayerA.props ++ [⟨PROP_ALPHA, 9, 0⟩])) :=
  ⟨by decide, c10_layer_property_set sampleLayerA PROP_ALPHA 9 (by decide)⟩

/-! ### plane.c: property staging -/

/-- plane_property_get: first plane property with the given liftoff index. -/
def plane_property_get (plane : Plane) (prop : Nat) : Option PlaneProp :=
  plane.props.find? (fun p => p.index == prop)

/-- drmModeGetPropertyType from libdrm: the flags masked to the legacy and
extended type bits. -/
def drmModeGetPropertyType (flags : Nat) : Nat :=
  flags &&& DRM_MODE_PROP_TYPE_MASK

/-- plane_prop_range_check. -/
def plane_prop_range_check (prop : DProp) (value : Nat) : Int :=
  if value < prop.values.getD 0 0 || value > prop.values.getD 1 0 then -EINVAL
  else 0

/-- plane_prop_signed_range_check. -/
def plane_prop_signed_range_check (prop : DProp) (value : Nat) : Int :=
  if toInt64 value < toInt64 (prop.values.getD 0 0) ||
     toInt64 value > toInt64 (prop.values.getD 1 0) then -EINVAL
  else 0

/-- plane_prop_enum_check. -/
def plane_prop_enum_check (prop : DProp) (value : Nat) : Int :=
  if prop.enums.any (fun e => e == value) then 0 else -EINVAL

/-- plane_prop_bitmask_check.  The C shift of the int 1 by the enum value
is undefined beyond bit 30; it is modelled as a plain 64-bit shift. -/
def plane_prop_bitmask_check (prop : DProp) (value : Nat) : Int :=
  let mask := prop.enums.foldl (fun m e => m ||| ((1 <<< e) % 2 ^ 64)) 0
  if (value &&& (mask ^^^ (2 ^ 64 - 1))) != 0 then -EINVAL else 0

/-- plane_property_set: drmModeAtomicAddProperty followed by the error
check.  Allocation failure of the request is not modelled, so this always
succeeds and appends the staged triple. -/
def plane_property_set (plane : Plane) (req : Req) (id value : Nat) : Int × Req :=
  (0, req ++ [(plane.id, id, value)])

/-- The switch on drmModeGetPropertyType inside plane_prop_set: dispatch
the value check by DRM property kind; unknown kinds check nothing. -/
def plane_prop_kind_check (dprop : DProp) (value : Nat) : Int :=
  let t := drmModeGetPropertyType dprop.flags
  if t == DRM_MODE_PROP_RANGE then plane_prop_range_check dprop value
  else if t == DRM_MODE_PROP_ENUM then plane_prop_enum_check dprop value
  else if t == DRM_MODE_PROP_BITMASK then plane_prop_bitmask_check dprop value
  else if t == DRM_MODE_PROP_SIGNED_RANGE then
    plane_prop_signed_range_check dprop value
  else 0

/-- plane_prop_set: look the property up by liftoff index, refuse missing
or IMMUTABLE properties, validate the value against the DRM property kind,
then stage it. -/
def plane_prop_set (plane : Plane) (req : Req) (index value : Nat) : Int × Req :=
  match plane_property_get plane index with
  | none => (-EINVAL, req)
  | some prop =>
      if (prop.dprop.flags &&& DRM_MODE_PROP_IMMUTABLE) != 0 then (-EINVAL, req)
      else
        let ret := plane_prop_kind_check prop.dprop value
        if ret != 0 then (ret, req)
        else plane_property_set plane req prop.id value

/-- The tolerated absences in the plane_apply property loop: layer
properties a plane may lack when the value is the neutral one. -/
def plane_apply_tolerated (lprop : PropVal) : Bool :=
  (lprop.index == PROP_ALPHA && lprop.value == 0xFFFF) ||
  (lprop.index == PROP_ROTATION && lprop.value == DRM_MODE_ROTATE_0) ||
  (lprop.index == PROP_SCALING_FILTER && lprop.value == 0) ||
  (lprop.index == PROP_PIXEL_BLEND_MODE && lprop.value == 0) ||
  (lprop.index == PROP_FB_DAMAGE_CLIPS)

/-- The property loop of plane_apply over the layer properties, with c the
cursor taken at entry of plane_apply.  ZPOS is skipped; a property the
plane lacks is tolerated only for the neutral values, otherwise the
request is rewound to c and -EINVAL returned; a property the plane holds
is staged directly through plane_property_set (without any IMMUTABLE or
kind validation). -/
def plane_apply_props (plane : Plane) (c : Nat) : List PropVal → Req → Int × Req
  | [], req => (0, req)
  | lprop :: rest, req =>
      if lprop.index == PROP_ZPOS then plane_apply_props plane c rest req
      else
        match plane_property_get plane lprop.index with
        | none =>
            if plane_apply_tolerated lprop then plane_apply_props plane c rest req
            else (-EINVAL, req.take c)
        | some pprop =>
            let r := plane_property_set plane req pprop.id lprop.value
            if r.1 != 0 then (r.1, r.2.take c) else plane_apply_props plane c rest r.2

/-- plane_apply.  A null layer disables the plane (FB_ID and CRTC_ID are
zeroed through plane_prop_set); otherwise CRTC_ID is set to the CRTC of
the output of the layer and the layer properties are staged. -/
def plane_apply (plane : Plane) (layer : Option Layer) (crtc_id : Nat)
    (req : Req) : Int × Req :=
  let c := req.length
  match layer with
  | none =>
      let r := plane_prop_set plane req PROP_FB_ID 0
      if r.1 != 0 then r
      else plane_prop_set plane r.2 PROP_CRTC_ID 0
  | some layer =>
      let r := plane_prop_set plane req PROP_CRTC_ID crtc_id
      if r.1 != 0 then r
      else plane_apply_props plane c layer.props r.2

/-! ### C2: plane_apply and property validation -/

/-- DRM metadata with no flags: mutable, no recognised kind, so no value
check applies. -/
def dpropFree : DProp := ⟨0, [], []⟩

/-- DRM metadata carrying only the IMMUTABLE flag. -/
def dpropImmutable : DProp := ⟨DRM_MODE_PROP_IMMUTABLE, [], []⟩

/-- A plane holding a mutable CRTC_ID property and an IMMUTABLE ALPHA
property. -/
def samplePlaneImm : Plane :=
  ⟨10, DRM_PLANE_TYPE_OVERLAY, 0, 1, none,
   [⟨PROP_CRTC_ID, 100, dpropFree⟩, ⟨PROP_ALPHA, 101, dpropImmutable⟩], none⟩

/-- A layer holding a single ALPHA property with value 5. -/
def sampleLayerImm : Layer :=
  ⟨[⟨PROP_ALPHA, 5, 0⟩], false, false, FBInfo.zero, FBInfo.zero, none, 0, 0⟩

/-- C2 counterexample: the matching plane property of the staged ALPHA
layer property is IMMUTABLE, yet plane_apply succeeds (returns 0) and
stages the value, because the layer property loop uses plane_property_set,
which performs no IMMUTABLE or kind validation.  The claim says this call
must fail with -EINVAL and rewind the request. -/
theorem c2_counterexample :
    (plane_property_get samplePlaneImm PROP_ALPHA).map
        (fun p => p.dprop.flags &&& DRM_MODE_PROP_IMMUTABLE) =
      some DRM_MODE_PROP_IMMUTABLE ∧
    plane_apply samplePlaneImm (some sampleLayerImm) 7 [] =
      (0, [(10, 100, 7), (10, 101, 5)]) := by decide

/-- plane_prop_set either fails leaving the request unchanged or succeeds
appending exactly one staged triple. -/
theorem plane_prop_set_shape (plane : Plane) (req : Req) (index value : Nat) :
    ((plane_prop_set plane req index value).1 ≠ 0 ∧
      (plane_prop_set plane req index value).2 = req) ∨
    ((plane_prop_set plane req index value).1 = 0 ∧
      ∃ x, (plane_prop_set plane req index value).2 = req ++ [x]) := by
  rw [plane_prop_set]
  split
  · exact Or.inl ⟨by norm_num [EINVAL], rfl⟩
  · dsimp only
    split
    · exact Or.inl ⟨by norm_num [EINVAL], rfl⟩
    · split
      · rename_i hr
        exact Or.inl ⟨by simpa using hr, rfl⟩
      · exact Or.inr ⟨rfl, _, rfl⟩

/-- When every non-ZPOS layer property is either present on the plane or a
tolerated absence, the plane_apply property loop succeeds. -/
theorem plane_apply_props_all_found (plane : Plane) (c : Nat) :
    ∀ (props : List PropVal) (req : Req),
    (∀ lp ∈ props, lp.index ≠ PROP_ZPOS →
      (plane_property_get plane lp.index).isSome = true ∨ plane_apply_tolerated lp = true) →
    (plane_apply_props plane c props req).1 = 0 := by
  intro props
  induction props with
  | nil => intro req _; simp [plane_apply_props]
  | cons lp rest ih =>
      intro req h
      rw [plane_apply_props]
      by_cases hz : (lp.index == PROP_ZPOS) = true
      · rw [if_pos hz]
        exact ih req (fun q hq => h q (List.mem_cons_of_mem _ hq))
      · rw [if_neg hz]
        cases hp : plane_property_get plane lp.index with
        | none =>
            have := h lp (List.mem_cons_self _ _) (by simpa using hz)
            rw [hp] at this
            simp only [Option.isSome_none] at this
            have htol : plane_apply_tolerated lp = true := by
              rcases this with h1 | h1
              · exact absurd h1 (by simp)
              · exact h1
            rw [if_pos htol]
            exact ih _ (fun q hq => h q (List.mem_cons_of_mem _ hq))
        | some pprop =>
            simp only [plane_property_set]
            rw [if_neg (by simp)]
            exact ih _ (fun q hq => h q (List.mem_cons_of_mem _ hq))

/-- When some non-ZPOS layer property is absent from the plane and not a
tolerated absence, the plane_apply property loop fails with -EINVAL and
rewinds the request to the entry cursor c. -/
theorem plane_apply_props_missing (plane : Plane) (c : Nat) :
    ∀ (props : List PropVal) (req : Req), c ≤ req.length →
    (∃ lp ∈ props, lp.index ≠ PROP_ZPOS ∧
      plane_property_get plane lp.index = none ∧ plane_apply_tolerated lp = false) →
    plane_apply_props plane c props req = (-EINVAL, req.take c) := by
  intro props
  induction props with
  | nil => intro req _ h; simp at h
  | cons lp rest ih =>
      intro req hc h
      rw [plane_apply_props]
      by_cases hz : (lp.index == PROP_ZPOS) = true
      · rw [if_pos hz]
        rcases h with ⟨q, hq, hqz, hqn, hqt⟩
        rcases List.mem_cons.mp hq with rfl | hq'
        · exact absurd (by simpa using hz) hqz
        · exact ih req hc ⟨q, hq', hqz, hqn, hqt⟩
      · rw [if_neg hz]
        cases hp : plane_property_get plane lp.index with
        | none =>
            by_cases htol : plane_apply_tolerated lp = true
            · rw [if_pos htol]
              rcases h with ⟨q, hq, hqz, hqn, hqt⟩
              rcases List.mem_cons.mp hq with rfl | hq'
              · rw [htol] at hqt; exact absurd hqt (by simp)
              · exact ih req hc ⟨q, hq', hqz, hqn, hqt⟩
            · rw [if_neg htol]
        | some pprop =>
            simp only [plane_property_set]
            rw [if_neg (by simp)]
            rcases h with ⟨q, hq, hqz, hqn, hqt⟩
            rcases List.mem_cons.mp hq with rfl | hq'
            · rw [hp] at hqn; exact absurd hqn (by simp)
            · have := ih (req ++ [(plane.id, pprop.id, lp.value)])
                (le_trans hc (by simp)) ⟨q, hq', hqz, hqn, hqt⟩
              rw [this, List.take_append_of_le_length hc]

/-- C2 (amended): plane_apply performs no IMMUTABLE or kind validation on
the layer properties it stages.  Provided the CRTC_ID staging succeeds,
the call succeeds whenever every non-ZPOS layer property is present on
the plane or a tolerated absence, regardless of the IMMUTABLE flag or
value domain of the matching plane properties; it fails with -EINVAL and
rewinds the request exactly on a missing, untolerated property. -/
theorem c2_plane_apply_no_validation (plane : Plane) (layer : Layer)
    (crtc : Nat) (req : Req)
    (hcrtc : (plane_prop_set plane req PROP_CRTC_ID crtc).1 = 0) :
    ((∀ lp ∈ layer.props, lp.index ≠ PROP_ZPOS →
        (plane_property_get plane lp.index).isSome = true ∨
        plane_apply_tolerated lp = true) →
      (plane_apply plane (some layer) crtc req).1 = 0) ∧
    ((∃ lp ∈ layer.props, lp.index ≠ PROP_ZPOS ∧
        plane_property_get plane lp.index = none ∧
        plane_apply_tolerated lp = false) →
      plane_apply plane (some layer) crtc req = (-EINVAL, req)) := by
  rcases plane_prop_set_shape plane req PROP_CRTC_ID crtc with ⟨h1, _⟩ | ⟨h1, x, h2⟩
  · exact absurd hcrtc h1
  · have hbne : ((plane_prop_set plane req PROP_CRTC_ID crtc).1 != 0) = false := by
      simp [h1]
    constructor
    · intro hall
      rw [plane_apply]
      simp only [hbne, Bool.false_eq_true, if_false]
      exact plane_apply_props_all_found plane req.length layer.props _ hall
    · intro hex
      rw [plane_apply]
      simp only [hbne, Bool.false_eq_true, if_false]
      rw [h2, plane_apply_props_missing plane req.length layer.props _ (by simp) hex,
        List.take_left]

/-- Witness for c2_plane_apply_no_validation at the concrete sample plane
and layer. -/
theorem c2_plane_apply_no_validation_witness :
    (plane_prop_set samplePlaneImm [] PROP_CRTC_ID 7).1 = 0 ∧
    (((∀ lp ∈ sampleLayerImm.props, lp.index ≠ PROP_ZPOS →
        (plane_property_get samplePlaneImm lp.index).isSome = true ∨
        plane_apply_tolerated lp = true) →
      (plane_apply samplePlaneImm (some sampleLayerImm) 7 []).1 = 0) ∧
    ((∃ lp ∈ sampleLayerImm.props, lp.index ≠ PROP_ZPOS ∧
        plane_property_get samplePlaneImm lp.index = none ∧
        plane_apply_tolerated lp = false) →
      plane_apply samplePlaneImm (some sampleLayerImm) 7 [] = (-EINVAL, []))) :=
  ⟨by decide, c2_plane_apply_no_validation samplePlaneImm sampleLayerImm 7 []
    (by decide)⟩

/-! ### plane.c: plane_check_layer_fb (C6) -/

/-- The first loop of plane_check_layer_fb: index of the first occurrence
of the pixel format in the format array of the blob. -/
def format_index_find : List Nat → Nat → Option Nat
  | [], _ => none
  | f :: fs, pf => if f == pf then some 0 else (format_index_find fs pf).map (· + 1)

/-- The second loop of plane_check_layer_fb: the entry at the first index
whose modifier field matches. -/
def modifier_find : List FormatModifier → Nat → Option FormatModifier
  | [], _ => none
  | m :: ms, mo => if m.modifier == mo then some m else modifier_find ms mo

/-- plane_check_layer_fb.  Returns true (cannot reject) without an FB_ID,
without the MODIFIERS flag, or without an IN_FORMATS blob; otherwise
locates the pixel format and the modifier in the blob and tests the
corresponding bit of the 64-bit format mask window. -/
def plane_check_layer_fb (plane : Plane) (layer : Layer) : Bool :=
  match plane.in_formats_blob with
  | none => true
  | some set =>
      if layer.fb_info.fb_id == 0 ||
         (layer.fb_info.flags &&& DRM_MODE_FB_MODIFIERS) == 0 then true
      else
        match format_index_find set.formats layer.fb_info.pixel_format with
        | none => false
        | some format_index =>
            match modifier_find set.modifiers layer.fb_info.modifier with
            | none => false
            | some md =>
                if decide ((format_index : Int) < toInt32 md.offset) ||
                   decide ((format_index : Int) ≥ toInt32 md.offset + 64) then false
                else
                  let format_shift := ((format_index : Int) - toInt32 md.offset).toNat
                  (md.formats &&& (1 <<< format_shift)) != 0

theorem toInt32_of_lt {v : Nat} (h : v < 2 ^ 31) : toInt32 v = (v : Int) := by
  have h32 : v < 2 ^ 32 := lt_trans h (by norm_num)
  simp only [toInt32, Nat.mod_eq_of_lt h32]
  rw [if_pos h]

theorem format_index_find_eq_some {l : List Nat} {x : Nat} (hl : l.Nodup) :
    ∀ i : Nat, (format_index_find l x = some i ↔ l.get? i = some x) := by
  induction l with
  | nil => intro i; simp [format_index_find]
  | cons a as ih =>
      intro i
      rw [format_index_find]
      by_cases h : (a == x) = true
      · rw [if_pos h]
        have hax : a = x := by simpa using h
        subst hax
        cases i with
        | zero => simp
        | succ j =>
            simp only [List.get?_cons_succ]
            constructor
            · intro hc; exact absurd hc (by simp)
            · intro hc
              have : a ∈ as := List.get?_mem hc
              exact absurd this (List.nodup_cons.mp hl).1
      · rw [if_neg h]
        have hax : a ≠ x := by simpa using h
        cases i with
        | zero =>
            simp only [List.get?_cons_zero, Option.map_eq_some']
            constructor
            · rintro ⟨j, _, hj⟩; exact absurd hj (by simp)
            · intro hc; exact absurd (Option.some.inj hc) hax
        | succ j =>
            simp only [List.get?_cons_succ, Option.map_eq_some']
            rw [← ih (List.nodup_cons.mp hl).2 j]
            constructor
            · rintro ⟨k, hk, hkj⟩
              have : k = j := by omega
              exact this ▸ hk
            · intro hj; exact ⟨j, hj, rfl⟩

theorem format_index_find_eq_none {l : List Nat} {x : Nat} :
    format_index_find l x = none ↔ x ∉ l := by
  induction l with
  | nil => simp [format_index_find]
  | cons a as ih =>
      rw [format_index_find]
      by_cases h : (a == x) = true
      · have hax : a = x := by simpa using h
        simp [if_pos h, hax]
      · have hax : a ≠ x := by simpa using h
        rw [if_neg h]
        simp only [Option.map_eq_none', ih, List.mem_cons, not_or]
        constructor
        · intro hx; exact ⟨fun hh => hax hh.symm, hx⟩
        · intro hx; exact hx.2

theorem modifier_find_eq_some {l : List FormatModifier} {x : Nat}
    (hm : (l.map FormatModifier.modifier).Nodup) (md : FormatModifier) :
    modifier_find l x = some md ↔ md.modifier = x ∧ md ∈ l := by
  induction l with
  | nil => simp [modifier_find]
  | cons m ms ih =>
      rw [modifier_find]
      rw [List.map_cons, List.nodup_cons] at hm
      by_cases h : (m.modifier == x) = true
      · have hmx : m.modifier = x := by simpa using h
        rw [if_pos h]
        simp only [Option.some.injEq, List.mem_cons]
        constructor
        · rintro rfl; exact ⟨hmx, Or.inl rfl⟩
        · rintro ⟨hmdx, rfl | hmem⟩
          · rfl
          · have hin : md.modifier ∈ ms.map FormatModifier.modifier :=
              List.mem_map_of_mem FormatModifier.modifier hmem
            rw [hmdx, ← hmx] at hin
            exact absurd hin hm.1
      · have hmx : m.modifier ≠ x := by simpa using h
        rw [if_neg h]
        rw [ih hm.2]
        simp only [List.mem_cons]
        constructor
        · rintro ⟨hmdx, hmem⟩; exact ⟨hmdx, Or.inr hmem⟩
        · rintro ⟨hmdx, rfl | hmem⟩
          · exact absurd hmdx hmx
          · exact ⟨hmdx, hmem⟩

theorem modifier_find_eq_none {l : List FormatModifier} {x : Nat} :
    modifier_find l x = none ↔ ∀ md ∈ l, md.modifier ≠ x := by
  induction l with
  | nil => simp [modifier_find]
  | cons m ms ih =>
      rw [modifier_find]
      by_cases h : (m.modifier == x) = true
      · have hmx : m.modifier = x := by simpa using h
        simp [if_pos h, hmx]
      · have hmx : m.modifier ≠ x := by simpa using h
        simp [if_neg h, ih, hmx]

theorem and_one_shift_ne_zero (a k : Nat) :
    ((a &&& (1 <<< k)) != 0) = a.testBit k := by
  have h1 : (1 : Nat) <<< k = 2 ^ k := by
    rw [Nat.shiftLeft_eq, one_mul]
  rw [h1, Nat.and_two_pow]
  cases h : a.testBit k
  · simp [h]
  · have h2 : (2 : Nat) ^ k ≠ 0 := by positivity
    simp [h, h2]

/-- C6: characterization of plane_check_layer_fb.  Without a blob it cannot
reject; with a blob whose format list and modifier keys are duplicate-free
(and whose offsets are small enough for the C int arithmetic), it returns
true iff the layer has no framebuffer, the framebuffer lacks the MODIFIERS
flag, or the blob contains the (format, modifier) pair: the pixel format
at some index i, the modifier entry, with i inside the 64-wide window at
the entry offset and bit (i - offset) of the format mask set.  In
particular it returns false only when the blob provably excludes the
pair. -/
theorem c6_check_layer_fb (plane : Plane) (layer : Layer) :
    (plane.in_formats_blob = none → plane_check_layer_fb plane layer = true) ∧
    (∀ set, plane.in_formats_blob = some set →
      set.formats.Nodup →
      (set.modifiers.map FormatModifier.modifier).Nodup →
      (∀ md ∈ set.modifiers, md.offset + 64 < 2 ^ 31) →
      (plane_check_layer_fb plane layer = true ↔
        layer.fb_info.fb_id = 0 ∨
        layer.fb_info.flags &&& DRM_MODE_FB_MODIFIERS = 0 ∨
        ∃ i, set.formats.get? i = some layer.fb_info.pixel_format ∧
          ∃ md ∈ set.modifiers, md.modifier = layer.fb_info.modifier ∧
            md.offset ≤ i ∧ i < md.offset + 64 ∧
            md.formats.testBit (i - md.offset) = true)) := by
  constructor
  · intro hb
    simp [plane_check_layer_fb, hb]
  · intro set hb hf hm hoff
    simp only [plane_check_layer_fb, hb]
    by_cases hc : (layer.fb_info.fb_id == 0 ||
        (layer.fb_info.flags &&& DRM_MODE_FB_MODIFIERS) == 0) = true
    · rw [if_pos hc]
      simp only [Bool.or_eq_true, beq_iff_eq] at hc
      constructor
      · intro _
        rcases hc with h | h
        · exact Or.inl h
        · exact Or.inr (Or.inl h)
      · intro _; rfl
    · rw [if_neg hc]
      simp only [Bool.or_eq_true, beq_iff_eq, not_or] at hc
      cases hfi : format_index_find set.formats layer.fb_info.pixel_format with
      | none =>
          constructor
          · intro habs; exact absurd habs (by simp)
          · rintro (h | h | ⟨i, hi, _⟩)
            · exact absurd h hc.1
            · exact absurd h hc.2
            · exact absurd (List.get?_mem hi) (format_index_find_eq_none.mp hfi)
      | some fi =>
          cases hmd : modifier_find set.modifiers layer.fb_info.modifier with
          | none =>
              constructor
              · intro habs; exact absurd habs (by simp)
              · rintro (h | h | ⟨i, hi, md', hmem', hmod', _⟩)
                · exact absurd h hc.1
                · exact absurd h hc.2
                · exact absurd hmod' (modifier_find_eq_none.mp hmd md' hmem')
          | some md =>
              dsimp only
              have hmdin := (modifier_find_eq_some hm md).mp hmd
              have ht32 : toInt32 md.offset = (md.offset : Int) :=
                toInt32_of_lt (by have := hoff md hmdin.2; omega)
              rw [ht32]
              by_cases hg : (decide ((fi : Int) < (md.offset : Int)) ||
                  decide ((fi : Int) ≥ (md.offset : Int) + 64)) = true
              · rw [if_pos hg]
                simp only [Bool.or_eq_true, decide_eq_true_eq] at hg
                constructor
                · intro habs; exact absurd habs (by simp)
                · rintro (h | h | ⟨i, hi, md', hmem', hmod', hle, hlt, _⟩)
                  · exact absurd h hc.1
                  · exact absurd h hc.2
                  · have hieq : some fi = some i := by
                      rw [← hfi, (format_index_find_eq_some hf i).mpr hi]
                    have hmdeq : some md = some md' := by
                      rw [← hmd, (modifier_find_eq_some hm md').mpr ⟨hmod', hmem'⟩]
                    cases Option.some.inj hieq
                    cases Option.some.inj hmdeq
                    omega
              · rw [if_neg hg]
                simp only [Bool.or_eq_true, decide_eq_true_eq, not_or, not_lt, ge_iff_le,
                  not_le] at hg
                have hoffle : md.offset ≤ fi := by omega
                have hfilt : fi < md.offset + 64 := by omega
                have hsh : ((fi : Int) - (md.offset : Int)).toNat = fi - md.offset := by
                  omega
                rw [hsh, and_one_shift_ne_zero]
                constructor
                · intro hbit
                  exact Or.inr (Or.inr ⟨fi, (format_index_find_eq_some hf fi).mp hfi,
                    md, hmdin.2, hmdin.1, hoffle, hfilt, hbit⟩)
                · rintro (h | h | ⟨i, hi, md', hmem', hmod', hle, hlt, hbit⟩)
                  · exact absurd h hc.1
                  · exact absurd h hc.2
                  · have hieq : some fi = some i := by
                      rw [← hfi, (format_index_find_eq_some hf i).mpr hi]
                    have hmdeq : some md = some md' := by
                      rw [← hmd, (modifier_find_eq_some hm md').mpr ⟨hmod', hmem'⟩]
                    cases Option.some.inj hieq
                    cases Option.some.inj hmdeq
                    exact hbit

/-- A concrete IN_FORMATS blob: one format 7, one modifier entry with
modifier 9, offset 0 and mask bit 0 set. -/
def sampleInFormats : InFormats := ⟨[7], [⟨1, 0, 9⟩]⟩

/-- A plane carrying the sample blob. -/
def samplePlaneBlob : Plane :=
  ⟨11, DRM_PLANE_TYPE_OVERLAY, 0, 1, none, [], some sampleInFormats⟩

/-- A layer whose cached framebuffer uses format 7 with modifier 9 and has
the MODIFIERS flag. -/
def sampleLayerFB : Layer :=
  ⟨[], false, false, ⟨1, 0, 0, 7, 9, 2⟩, FBInfo.zero, none, 0, 0⟩

/-- Witness for c6_check_layer_fb at the concrete blob and layer. -/
theorem c6_check_layer_fb_witness :
    plane_check_layer_fb samplePlaneBlob sampleLayerFB = true ↔
      sampleLayerFB.fb_info.fb_id = 0 ∨
      sampleLayerFB.fb_info.flags &&& DRM_MODE_FB_MODIFIERS = 0 ∨
      ∃ i, sampleInFormats.formats.get? i = some sampleLayerFB.fb_info.pixel_format ∧
        ∃ md ∈ sampleInFormats.modifiers, md.modifier = sampleLayerFB.fb_info.modifier ∧
          md.offset ≤ i ∧ i < md.offset + 64 ∧
          md.formats.testBit (i - md.offset) = true :=
  (c6_check_layer_fb samplePlaneBlob sampleLayerFB).2 sampleInFormats rfl
    (by decide) (by decide) (by decide)

/-! ### alloc.c: the reuse guard (C4) -/

/-- layer_fb_info_needs_realloc. -/
def layer_fb_info_needs_realloc (a b : FBInfo) : Bool :=
  a.width != b.width || a.height != b.height ||
  a.pixel_format != b.pixel_format || a.modifier != b.modifier

/-- The loop body of layer_realloc_get for one property: true means the
property forces reallocation.  FB_ID is examined before the
value-unchanged test; all other properties are skipped when unchanged. -/
def layer_realloc_prop (layer : Layer) (prop : PropVal) : Bool :=
  if prop.index == PROP_FB_ID then
    if prop.value == 0 && prop.prev_value == 0 then false
    else if prop.value == 0 || prop.prev_value == 0 then true
    else layer_fb_info_needs_realloc layer.fb_info layer.prev_fb_info
  else if prop.value == prop.prev_value then false
  else if prop.index == PROP_ALPHA then
    prop.value == 0 || prop.prev_value == 0 ||
      prop.value == 0xFFFF || prop.prev_value == 0xFFFF
  else if prop.index == PROP_IN_FENCE_FD || prop.index == PROP_FB_DAMAGE_CLIPS then
    false
  else true

/-- layer_realloc_get. -/
def layer_realloc_get (layer : Layer) : Bool :=
  layer.changed || layer.props.any (layer_realloc_prop layer)

/-- The guard phase of reuse_prev_alloc (alloc.c lines 591 to 597): reuse
is permitted when layers_changed is clear and no layer needs
reallocation. -/
def reuse_guard (st : OutputState) : Bool :=
  !st.layers_changed && st.layers.all (fun l => !(layer_realloc_get l))

/-- The four framebuffer fields the reuse guard compares bit-exactly. -/
def fb_info_quad (i : FBInfo) : Nat × Nat × Nat × Nat :=
  (i.width, i.height, i.pixel_format, i.modifier)

/-- The harmless property changes as the claim words them. -/
def prop_change_harmless (layer : Layer) (p : PropVal) : Bool :=
  if p.index == PROP_IN_FENCE_FD || p.index == PROP_FB_DAMAGE_CLIPS then true
  else if p.index == PROP_ALPHA then
    !(p.value == 0 || p.value == 0xFFFF || p.prev_value == 0 || p.prev_value == 0xFFFF)
  else if p.index == PROP_FB_ID then
    p.value != 0 && p.prev_value != 0 &&
      (fb_info_quad layer.fb_info == fb_info_quad layer.prev_fb_info)
  else false

/-- Modelled from the claim wording: reuse permitted iff layers_changed is
false and, for every layer, changed is false and every property whose
value differs from its previous-clean snapshot is harmless. -/
def reuse_guard_claim (st : OutputState) : Bool :=
  !st.layers_changed && st.layers.all (fun l =>
    !l.changed && l.props.all (fun p =>
      p.value == p.prev_value || prop_change_harmless l p))

/-- The amended per-property condition: as the claim words it for every
property except FB_ID, whose framebuffer-descriptor condition applies
regardless of whether the FB_ID value changed. -/
def reuse_prop_amended (l : Layer) (p : PropVal) : Bool :=
  if p.index == PROP_FB_ID then
    (p.value == 0 && p.prev_value == 0) ||
    (p.value != 0 && p.prev_value != 0 &&
      (fb_info_quad l.fb_info == fb_info_quad l.prev_fb_info))
  else p.value == p.prev_value || prop_change_harmless l p

/-- The amended guard. -/
def reuse_guard_amended (st : OutputState) : Bool :=
  !st.layers_changed && st.layers.all (fun l =>
    !l.changed && l.props.all (reuse_prop_amended l))

/-- A state with one layer whose FB_ID value is unchanged (1) while the
cached framebuffer width changed from 3 to 2. -/
def sampleReuseState : OutputState :=
  { layers := [⟨[⟨PROP_FB_ID, 1, 1⟩], false, false,
      ⟨1, 2, 2, 2, 2, 0⟩, ⟨1, 3, 2, 2, 2, 0⟩, none, 0, 0⟩]
    comp_layer := none
    layers_changed := false
    planes := []
    page_flip_counter := 0
    crtc_id := 0
    crtc_index := 0 }

/-- C4 counterexample: no property value differs from its snapshot, so the
claimed characterization permits reuse, yet the code denies it because the
cached framebuffer info of the unchanged FB_ID differs. -/
theorem c4_counterexample :
    reuse_guard sampleReuseState = false ∧
    reuse_guard_claim sampleReuseState = true := by decide

theorem needs_realloc_iff_quad (a b : FBInfo) :
    layer_fb_info_needs_realloc a b = !(fb_info_quad a == fb_info_quad b) := by
  simp [layer_fb_info_needs_realloc, fb_info_quad, instBEqProd, bne, Bool.not_and,
    Bool.or_assoc]

theorem not_any_eq_all_not {α : Type} (l : List α) (f : α → Bool) :
    (!(l.any f)) = l.all (fun x => !(f x)) := by
  induction l with
  | nil => rfl
  | cons a as ih => simp [List.any_cons, List.all_cons, Bool.not_or, ih]

theorem realloc_prop_amended (l : Layer) (p : PropVal) :
    (!(layer_realloc_prop l p)) = reuse_prop_amended l p := by
  rw [layer_realloc_prop, reuse_prop_amended, prop_change_harmless]
  by_cases hfb : (p.index == PROP_FB_ID) = true
  · simp only [hfb, if_true, needs_realloc_iff_quad]
    cases h0 : (p.value == 0) <;> cases h1 : (p.prev_value == 0) <;>
      cases hq : (fb_info_quad l.fb_info == fb_info_quad l.prev_fb_info) <;>
        simp [h0, h1, hq, bne]
  · have hfb2 : (p.index == PROP_FB_ID) = false := by simpa using hfb
    simp only [hfb2, Bool.false_eq_true, if_false]
    cases hvp : (p.value == p.prev_value)
    · simp only [hvp, Bool.false_eq_true, if_false, Bool.false_or]
      cases halpha : (p.index == PROP_ALPHA)
      · cases hfence : (p.index == PROP_IN_FENCE_FD)
        · cases hdmg : (p.index == PROP_FB_DAMAGE_CLIPS)
          · simp [halpha, hfence, hdmg]
          · simp [halpha, hfence, hdmg]
        · simp [halpha, hfence]
      · have h13 : p.index = PROP_ALPHA := by simpa using halpha
        have hf : (p.index == PROP_IN_FENCE_FD) = false := by
          simp [h13, PROP_ALPHA, PROP_IN_FENCE_FD]
        have hd : (p.index == PROP_FB_DAMAGE_CLIPS) = false := by
          simp [h13, PROP_ALPHA, PROP_FB_DAMAGE_CLIPS]
        simp only [halpha, hf, hd, Bool.false_eq_true, if_false, Bool.or_self,
          if_true]
        cases a0 : (p.value == 0) <;> cases b0 : (p.prev_value == 0) <;>
          cases af : (p.value == 0xFFFF) <;> cases bf : (p.prev_value == 0xFFFF) <;>
            simp [a0, b0, af, bf]
    · simp [hvp]

/-- C4 (amended): the reuse guard equals the amended characterization: as
claimed for every property except FB_ID, whose framebuffer-descriptor
condition applies even when the FB_ID value itself is unchanged. -/
theorem c4_reuse_guard_amended (st : OutputState) :
    reuse_guard st = reuse_guard_amended st := by
  have h1 : (fun l : Layer => !(layer_realloc_get l)) =
      (fun l : Layer => !l.changed && l.props.all (reuse_prop_amended l)) := by
    funext l
    rw [layer_realloc_get, Bool.not_or, not_any_eq_all_not]
    have h2 : (fun p : PropVal => !(layer_realloc_prop l p)) = reuse_prop_amended l :=
      funext (realloc_prop_amended l)
    rw [h2]
  rw [reuse_guard, reuse_guard_amended, h1]

/-! ### plane.c: plane registration order (C8) -/

/-- The fields of a registered plane that the creation-order logic reads. -/
structure PlaneReg where
  id : Nat
  type : Nat
  zpos : Int
  deriving DecidableEq

/-- What a liftoff_rpi_plane_create call observes from the DRM device for
one plane: its id, its type property, and its zpos property if any. -/
structure PlaneSpec where
  id : Nat
  type : Nat
  has_zpos : Bool
  zpos : Int
  deriving DecidableEq

/-- plane_zpos_guess.  The head of the plane list is read as the primary
plane (whatever its type). -/
def plane_zpos_guess (planes : List PlaneReg) (id ty : Nat) : Int :=
  if ty == DRM_PLANE_TYPE_PRIMARY then 0
  else if ty == DRM_PLANE_TYPE_CURSOR then 2
  else if ty == DRM_PLANE_TYPE_OVERLAY then
    match planes with
    | [] => 0
    | primary :: _ => if id < primary.id then -1 else 1
  else 0

/-- The non-primary insertion loop of liftoff_rpi_plane_create: insert
before the first non-primary plane with zpos not above the new one,
appending at the tail when no such plane exists. -/
def plane_insert_sorted : List PlaneReg → PlaneReg → List PlaneReg
  | [], p => [p]
  | cur :: rest, p =>
      if cur.type != DRM_PLANE_TYPE_PRIMARY && decide (p.zpos ≥ cur.zpos) then
        p :: cur :: rest
      else cur :: plane_insert_sorted rest p

/-- liftoff_rpi_plane_create at the list level: duplicate ids are refused
(EEXIST), the zpos is the property value or the guess, a PRIMARY plane
goes to the front and any other plane through the sorted insertion. -/
def liftoff_rpi_plane_create (planes : List PlaneReg) (s : PlaneSpec) :
    Option (List PlaneReg) :=
  if planes.any (fun p => p.id == s.id) then none
  else
    let z := if s.has_zpos then s.zpos else plane_zpos_guess planes s.id s.type
    let p : PlaneReg := ⟨s.id, s.type, z⟩
    some (if s.type == DRM_PLANE_TYPE_PRIMARY then p :: planes
          else plane_insert_sorted planes p)

/-- A sequence of registrations starting from the empty device; a failed
registration leaves the plane list unchanged. -/
def plane_create_seq (specs : List PlaneSpec) : List PlaneReg :=
  specs.foldl (fun l s => (liftoff_rpi_plane_create l s).getD l) []

/-- All planes non-primary and zpos non-increasing front to back. -/
def nonPrimDesc (l : List PlaneReg) : Prop :=
  (∀ p ∈ l, p.type ≠ DRM_PLANE_TYPE_PRIMARY) ∧
  l.Chain' (fun a b => b.zpos ≤ a.zpos)

theorem insert_sorted_mem {l : List PlaneReg} {p q : PlaneReg} :
    q ∈ plane_insert_sorted l p ↔ q ∈ l ∨ q = p := by
  induction l with
  | nil => simp [plane_insert_sorted]
  | cons cur rest ih =>
      rw [plane_insert_sorted]
      split
      · simp only [List.mem_cons, ih]; tauto
      · simp only [List.mem_cons, ih]; tauto

theorem insert_sorted_head {l : List PlaneReg} {p : PlaneReg} :
    (plane_insert_sorted l p).head? = some p ∨
    (plane_insert_sorted l p).head? = l.head? := by
  cases l with
  | nil => left; rfl
  | cons cur rest =>
      rw [plane_insert_sorted]
      split
      · left; rfl
      · right; rfl

theorem insert_sorted_nonPrimDesc {l : List PlaneReg} {p : PlaneReg}
    (hl : nonPrimDesc l) (hp : p.type ≠ DRM_PLANE_TYPE_PRIMARY) :
    nonPrimDesc (plane_insert_sorted l p) := by
  induction l with
  | nil =>
      refine ⟨?_, ?_⟩
      · intro q hq
        rw [plane_insert_sorted] at hq
        rcases List.mem_singleton.mp hq with rfl
        exact hp
      · rw [plane_insert_sorted]
        exact List.chain'_singleton p
  | cons cur rest ih =>
      obtain ⟨hmem, hchain⟩ := hl
      have hcur : cur.type ≠ DRM_PLANE_TYPE_PRIMARY := hmem cur (List.mem_cons_self _ _)
      have hrest : nonPrimDesc (plane_insert_sorted rest p) :=
        ih ⟨fun q hq => hmem q (List.mem_cons_of_mem _ hq),
          (List.chain'_cons'.mp hchain).2⟩
      rw [plane_insert_sorted]
      split
      · rename_i hcond
        refine ⟨?_, ?_⟩
        · intro q hq
          rcases List.mem_cons.mp hq with rfl | hq2
          · exact hp
          · exact hmem q hq2
        · rw [List.chain'_cons]
          have hz : cur.zpos ≤ p.zpos := by
            have := (Bool.and_eq_true _ _).mp hcond
            simpa using this.2
          exact ⟨hz, hchain⟩
      · rename_i hcond
        refine ⟨?_, ?_⟩
        · intro q hq
          rcases List.mem_cons.mp hq with rfl | hq2
          · exact hcur
          · rcases insert_sorted_mem.mp hq2 with hq3 | rfl
            · exact hmem q (List.mem_cons_of_mem _ hq3)
            · exact hp
        · rw [List.chain'_cons']
          refine ⟨?_, hrest.2⟩
          intro h hh
          rcases @insert_sorted_head rest p with hh2 | hh2
          · rw [hh2, Option.mem_def, Option.some.injEq] at hh
            subst hh
            have hz : ¬(p.zpos ≥ cur.zpos) := by
              intro hge
              apply hcond
              simp [bne_iff_ne, hcur, hge]
            omega
          · rw [hh2] at hh
            exact (List.chain'_cons'.mp hchain).1 h hh

theorem create_fold_inv :
    ∀ (specs : List PlaneSpec) (l : List PlaneReg),
    (∀ s ∈ specs, ∀ q ∈ l, q.id ≠ s.id) →
    (specs.map PlaneSpec.id).Nodup →
    ((nonPrimDesc l ∧
        specs.countP (fun s => s.type == DRM_PLANE_TYPE_PRIMARY) = 1) ∨
     ((∃ prim rest, l = prim :: rest ∧
         prim.type = DRM_PLANE_TYPE_PRIMARY ∧ nonPrimDesc rest) ∧
        specs.countP (fun s => s.type == DRM_PLANE_TYPE_PRIMARY) = 0)) →
    ∃ prim rest,
      specs.foldl (fun l s => (liftoff_rpi_plane_create l s).getD l) l =
        prim :: rest ∧
      prim.type = DRM_PLANE_TYPE_PRIMARY ∧ nonPrimDesc rest := by
  intro specs
  induction specs with
  | nil =>
      intro l _ _ hinv
      rcases hinv with ⟨_, hc⟩ | ⟨⟨prim, rest, h1, h2, h3⟩, _⟩
      · simp at hc
      · exact ⟨prim, rest, h1, h2, h3⟩
  | cons s rest_specs ih =>
      intro l hfresh hnodup hinv
      have hnotin : (l.any (fun p => p.id == s.id)) = false := by
        rw [List.any_eq_false]
        intro q hq
        simp [hfresh s (List.mem_cons_self _ _) q hq]
      rw [List.foldl_cons, liftoff_rpi_plane_create, if_neg (by simp [hnotin])]
      set z := if s.has_zpos then s.zpos else plane_zpos_guess l s.id s.type with hz
      set newp : PlaneReg := ⟨s.id, s.type, z⟩ with hnewp
      set l2 := if s.type == DRM_PLANE_TYPE_PRIMARY then newp :: l
        else plane_insert_sorted l newp with hl2
      have hmem2 : ∀ q ∈ l2, q ∈ l ∨ q = newp := by
        intro q hq
        rw [hl2] at hq
        by_cases hst : (s.type == DRM_PLANE_TYPE_PRIMARY) = true
        · rw [if_pos hst] at hq
          rcases List.mem_cons.mp hq with rfl | hq2
          · exact Or.inr rfl
          · exact Or.inl hq2
        · rw [if_neg hst] at hq
          exact insert_sorted_mem.mp hq
      have hfresh2 : ∀ s2 ∈ rest_specs, ∀ q ∈ l2, q.id ≠ s2.id := by
        intro s2 hs2 q hq
        rcases hmem2 q hq with hq2 | rfl
        · exact hfresh s2 (List.mem_cons_of_mem _ hs2) q hq2
        · have : s.id ∉ rest_specs.map PlaneSpec.id :=
            (List.nodup_cons.mp (by simpa using hnodup)).1
          intro hc
          rw [hnewp] at hc
          simp only at hc
          exact this (by rw [hc]; exact List.mem_map_of_mem PlaneSpec.id hs2)
      have hnodup2 : (rest_specs.map PlaneSpec.id).Nodup :=
        (List.nodup_cons.mp (by simpa using hnodup)).2
      apply ih l2 hfresh2 hnodup2
      by_cases hst : (s.type == DRM_PLANE_TYPE_PRIMARY) = true
      · have hstp : s.type = DRM_PLANE_TYPE_PRIMARY := by simpa using hst
        rcases hinv with ⟨hnd, hc⟩ | ⟨_, hc⟩
        · right
          constructor
          · exact ⟨newp, l, by rw [hl2, if_pos hst], hstp, hnd⟩
          · rw [List.countP_cons, if_pos (by simpa using hst)] at hc
            omega
        · rw [List.countP_cons, if_pos (by simpa using hst)] at hc
          omega
      · have hstp : s.type ≠ DRM_PLANE_TYPE_PRIMARY := by simpa using hst
        have hcnt : (s :: rest_specs).countP
            (fun s => s.type == DRM_PLANE_TYPE_PRIMARY) =
            rest_specs.countP (fun s => s.type == DRM_PLANE_TYPE_PRIMARY) := by
          rw [List.countP_cons, if_neg (by simpa using hst)]
          omega
        rcases hinv with ⟨hnd, hc⟩ | ⟨⟨prim, prest, hpr, hprt, hprnd⟩, hc⟩
        · left
          refine ⟨?_, by rw [← hcnt]; exact hc⟩
          rw [hl2, if_neg hst]
          exact insert_sorted_nonPrimDesc hnd hstp
        · right
          refine ⟨?_, by rw [← hcnt]; exact hc⟩
          rw [hl2, if_neg hst, hpr, plane_insert_sorted,
            if_neg (by simp [hprt, bne_iff_ne])]
          exact ⟨prim, plane_insert_sorted prest newp, rfl, hprt,
            insert_sorted_nonPrimDesc hprnd hstp⟩

/-- C8: after any sequence of successful registrations containing exactly
one PRIMARY plane, the plane list starts with the PRIMARY plane and the
remaining planes are ordered by zpos descending, whatever the creation
order was. -/
theorem c8_plane_order (specs : List PlaneSpec)
    (hids : (specs.map PlaneSpec.id).Nodup)
    (hprim : specs.countP (fun s => s.type == DRM_PLANE_TYPE_PRIMARY) = 1) :
    ∃ prim rest, plane_create_seq specs = prim :: rest ∧
      prim.type = DRM_PLANE_TYPE_PRIMARY ∧
      (∀ p ∈ rest, p.type ≠ DRM_PLANE_TYPE_PRIMARY) ∧
      rest.Chain' (fun a b => b.zpos ≤ a.zpos) := by
  rcases create_fold_inv specs [] (by simp) hids
      (Or.inl ⟨⟨by simp, List.chain'_nil⟩, hprim⟩) with
    ⟨prim, rest, h1, h2, h3, h4⟩
  exact ⟨prim, rest, h1, h2, h3, h4⟩

/-- The registration order used by the c8 witness: a cursor, then the
primary, then an overlay. -/
def sampleSpecs : List PlaneSpec :=
  [⟨3, DRM_PLANE_TYPE_CURSOR, true, 2⟩,
   ⟨1, DRM_PLANE_TYPE_PRIMARY, true, 0⟩,
   ⟨2, DRM_PLANE_TYPE_OVERLAY, true, 5⟩]

/-- Witness for c8_plane_order at the concrete registration sequence. -/
theorem c8_plane_order_witness :
    (sampleSpecs.map PlaneSpec.id).Nodup ∧
    (sampleSpecs.countP (fun s => s.type == DRM_PLANE_TYPE_PRIMARY) = 1) ∧
    ∃ prim rest, plane_create_seq sampleSpecs = prim :: rest ∧
      prim.type = DRM_PLANE_TYPE_PRIMARY ∧
      (∀ p ∈ rest, p.type ≠ DRM_PLANE_TYPE_PRIMARY) ∧
      rest.Chain' (fun a b => b.zpos ≤ a.zpos) :=
  ⟨by decide, by decide, c8_plane_order sampleSpecs (by decide) (by decide)⟩

/-! ### alloc.c: the search state -/

/-- struct alloc_step.  The alloc vector holds, for each plane position
already decided, the assigned layer (by index, with its data) or none; the
log prefix is omitted. -/
structure Step where
  alloc : List (Option (Nat × Layer))
  score : Int
  last_layer_zpos : Int
  primary_layer_zpos : Int
  primary_plane_zpos : Int
  composited : Bool
  deriving DecidableEq

/-- The read-only context of the search: the device plane list, the output
layer list with indices, the composition layer, CRTC identity, and the
static fields of struct alloc_result, plus the test-commit verdict as an
oracle over the request contents. -/
structure SearchCtx where
  planes : List Plane
  layers : List (Nat × Layer)
  comp_layer : Option Nat
  crtc_id : Nat
  crtc_index : Nat
  planes_len : Nat
  has_comp_layer : Bool
  non_comp_layers_len : Nat
  testOk : Req → Bool

/-- The mutable part of struct alloc_result threaded through the search:
best score, best allocation (layer indices by plane position), and the
atomic request. -/
structure SRes where
  best_score : Int
  best : List (Option Nat)
  req : Req
  deriving DecidableEq

/-- layer_allocated_get: the layer is among the first pindex alloc
entries. -/
def layer_allocated_get (step : Step) (li : Nat) : Bool :=
  step.alloc.any (fun a => (a.map Prod.fst) == some li)

/-- composited_layer_over_get. -/
def composited_layer_over_get (ctx : SearchCtx) (step : Step) (layer : Layer) :
    Bool :=
  match layer_property_get layer PROP_ZPOS with
  | none => false
  | some zprop =>
      ctx.layers.any (fun ol =>
        if layer_allocated_get step ol.1 then false
        else match layer_property_get ol.2 PROP_ZPOS with
          | none => false
          | some ozprop =>
              layer_intersects layer ol.2 && decide (ozprop.value > zprop.value))

/-- allocated_layer_over_get: iterate the planes alongside the alloc
entries (the C loop stops at pindex, which the zip truncation mirrors). -/
def allocated_layer_over_get (ctx : SearchCtx) (step : Step) (layer : Layer) :
    Bool :=
  match layer_property_get layer PROP_ZPOS with
  | none => false
  | some zprop =>
      (ctx.planes.zip step.alloc).any (fun pa =>
        if pa.1.type == DRM_PLANE_TYPE_PRIMARY then false
        else match pa.2 with
          | none => false
          | some ol =>
              match layer_property_get ol.2 PROP_ZPOS with
              | none => false
              | some ozprop =>
                  decide (zprop.value > ozprop.value) && layer_intersects layer ol.2)

/-- allocated_plane_under_get, with plane the one at the current step. -/
def allocated_plane_under_get (ctx : SearchCtx) (step : Step) (layer : Layer)
    (plane : Plane) : Bool :=
  (ctx.planes.zip step.alloc).any (fun pa =>
    if pa.1.type == DRM_PLANE_TYPE_PRIMARY then false
    else match pa.2 with
      | none => false
      | some ol => decide (plane.zpos ≥ pa.1.zpos) && layer_intersects layer ol.2)

/-- layer_plane_compatible_get. -/
def layer_plane_compatible_get (ctx : SearchCtx) (step : Step) (li : Nat)
    (layer : Layer) (plane : Plane) : Bool :=
  if layer_allocated_get step li then false
  else
    let zreject :=
      match layer_property_get layer PROP_ZPOS with
      | none => false
      | some zprop =>
          (decide (toInt32 zprop.value > step.last_layer_zpos) &&
            allocated_layer_over_get ctx step layer) ||
          (decide (toInt32 zprop.value < step.last_layer_zpos) &&
            allocated_plane_under_get ctx step layer plane) ||
          (plane.type != DRM_PLANE_TYPE_PRIMARY &&
            decide (toInt32 zprop.value < step.primary_layer_zpos) &&
            decide (plane.zpos > step.primary_plane_zpos))
    if zreject then false
    else if plane.type != DRM_PLANE_TYPE_PRIMARY &&
        composited_layer_over_get ctx step layer then false
    else if plane.type != DRM_PLANE_TYPE_PRIMARY &&
        ctx.comp_layer == some li then false
    else true

/-- non_comp_layers_len: visible layers other than the composition layer. -/
def non_comp_layers_len (layers : List Layer) (comp : Option Nat) : Nat :=
  (withIdx 0 layers).countP
    (fun il => layer_visible_get il.2 && !(comp == some il.1))

/-- alloc_valid_get.  The score is an int, the layer count a size_t cast
to int for the comparison. -/
def alloc_valid_get (ctx : SearchCtx) (step : Step) : Bool :=
  if ctx.has_comp_layer && !step.composited &&
      step.score != toInt32 ctx.non_comp_layers_len then false
  else if step.composited && step.score == toInt32 ctx.non_comp_layers_len then
    false
  else true

/-- The alloc_result fields liftoff_rpi_output_apply computes before the
search, as a context for the given output state. -/
def result_init (st : OutputState) (testOk : Req → Bool) : SearchCtx :=
  { planes := st.planes
    layers := withIdx 0 st.layers
    comp_layer := st.comp_layer
    crtc_id := st.crtc_id
    crtc_index := st.crtc_index
    planes_len := st.planes.length
    has_comp_layer := st.comp_layer.isSome
    non_comp_layers_len := non_comp_layers_len st.layers st.comp_layer
    testOk := testOk }

/-- The initial step of liftoff_rpi_output_apply: empty allocation, score
0, last_layer_zpos INT_MAX, primary_layer_zpos INT_MIN, primary_plane_zpos
INT_MAX, not composited. -/
def alloc_step_init : Step := ⟨[], 0, 2 ^ 31 - 1, -(2 ^ 31), 2 ^ 31 - 1, false⟩

theorem withIdx_length {α : Type} (i : Nat) (l : List α) :
    (withIdx i l).length = l.length := by
  induction l generalizing i with
  | nil => rfl
  | cons x xs ih => simp [withIdx, ih]

theorem non_comp_layers_len_le (layers : List Layer) (comp : Option Nat) :
    non_comp_layers_len layers comp ≤ layers.length := by
  rw [non_comp_layers_len]
  calc (withIdx 0 layers).countP _ ≤ (withIdx 0 layers).length :=
        List.countP_le_length _
    _ = layers.length := withIdx_length 0 layers

/-- C3: a terminal assignment is invalid exactly when the output has a
composition layer the assignment does not place while the score differs
from the visible non-composition layer count, or the assignment places
the composition layer while the score equals that count; otherwise it is
valid.  The side condition keeps the size_t-to-int cast of the count
exact. -/
theorem c3_alloc_valid (st : OutputState) (testOk : Req → Bool) (step : Step)
    (hlen : st.layers.length < 2 ^ 31) :
    alloc_valid_get (result_init st testOk) step = false ↔
      (st.comp_layer.isSome = true ∧ step.composited = false ∧
        step.score ≠ (non_comp_layers_len st.layers st.comp_layer : Int)) ∨
      (step.composited = true ∧
        step.score = (non_comp_layers_len st.layers st.comp_layer : Int)) := by
  have hk : toInt32 (non_comp_layers_len st.layers st.comp_layer) =
      ((non_comp_layers_len st.layers st.comp_layer : Nat) : Int) :=
    toInt32_of_lt (lt_of_le_of_lt (non_comp_layers_len_le _ _) hlen)
  simp only [alloc_valid_get, result_init, hk]
  by_cases h1 : (st.comp_layer.isSome && !step.composited &&
      step.score != ((non_comp_layers_len st.layers st.comp_layer : Nat) : Int)) = true
  · rw [if_pos h1]
    simp only [Bool.and_eq_true, Bool.not_eq_true', bne_iff_ne] at h1
    simp [h1.1.1, h1.1.2, h1.2]
  · rw [if_neg h1]
    by_cases h2 : (step.composited && step.score ==
        ((non_comp_layers_len st.layers st.comp_layer : Nat) : Int)) = true
    · rw [if_pos h2]
      simp only [Bool.and_eq_true, beq_iff_eq] at h2
      simp [h2.1, h2.2]
    · rw [if_neg h2]
      constructor
      · intro hc; exact absurd hc (by simp)
      · rintro (⟨ha, hb, hcne⟩ | ⟨ha, hb⟩)
        · exact absurd hcne (by simpa [ha, hb] using h1)
        · exact absurd hb (by simpa [ha] using h2)

/-- A concrete empty output state. -/
def sampleEmptyState : OutputState := ⟨[], none, false, [], 0, 7, 0⟩

/-- Witness for c3_alloc_valid at a concrete output and step. -/
theorem c3_alloc_valid_witness :
    sampleEmptyState.layers.length < 2 ^ 31 ∧
    (alloc_valid_get (result_init sampleEmptyState (fun _ => true)) alloc_step_init
        = false ↔
      (sampleEmptyState.comp_layer.isSome = true ∧
        alloc_step_init.composited = false ∧
        alloc_step_init.score ≠
          (non_comp_layers_len sampleEmptyState.layers sampleEmptyState.comp_layer : Int)) ∨
      (alloc_step_init.composited = true ∧
        alloc_step_init.score =
          (non_comp_layers_len sampleEmptyState.layers sampleEmptyState.comp_layer : Int))) :=
  ⟨by decide, c3_alloc_valid sampleEmptyState (fun _ => true) alloc_step_init
    (by decide)⟩

/-! ### alloc.c: the recursive search (output_layers_choose) -/

/-- plane_step_init_next: derive the child step from the parent when
assigning layer (or nothing) to the current plane.  The log prefix is
omitted. -/
def plane_step_init_next (ctx : SearchCtx) (step : Step) (plane : Plane)
    (layer : Option (Nat × Layer)) : Step :=
  let zprop := layer.bind (fun il => layer_property_get il.2 PROP_ZPOS)
  { alloc := step.alloc ++ [layer]
    composited :=
      if (match layer with
          | some il => ctx.comp_layer == some il.1
          | none => false) then true
      else step.composited
    score :=
      match layer with
      | some il => if ctx.comp_layer == some il.1 then step.score else step.score + 1
      | none => step.score
    last_layer_zpos :=
      match zprop with
      | some z => if plane.type != DRM_PLANE_TYPE_PRIMARY then toInt32 z.value
                  else step.last_layer_zpos
      | none => step.last_layer_zpos
    primary_layer_zpos :=
      match zprop with
      | some z => if plane.type == DRM_PLANE_TYPE_PRIMARY then toInt32 z.value
                  else step.primary_layer_zpos
      | none => step.primary_layer_zpos
    primary_plane_zpos :=
      match zprop with
      | some _ => if plane.type == DRM_PLANE_TYPE_PRIMARY then plane.zpos
                  else step.primary_plane_zpos
      | none => step.primary_plane_zpos }

/-- One iteration of the layer loop in output_layers_choose: skip bound,
invisible or incompatible layers; stage through plane_apply (an
incompatible-property -EINVAL skips, and the modelled plane_apply returns
only 0 or -EINVAL since request-allocation failure is not modelled); the
candidate-plane memo is diagnostic and omitted; skip the test commit for
forced composition or a rejecting IN_FORMATS pre-filter; on test success
recurse through next, and in every case restore the request cursor taken
at the node entry. -/
def choose_try (ctx : SearchCtx) (plane : Plane)
    (next : Step → SRes → SRes) (cur : Nat) (step : Step)
    (il : Nat × Layer) (r : SRes) : SRes :=
  if il.2.plane.isSome then r
  else if !(layer_visible_get il.2) then r
  else if !(layer_plane_compatible_get ctx step il.1 il.2 plane) then r
  else
    let pa := plane_apply plane (some il.2) ctx.crtc_id r.req
    if pa.1 == -EINVAL then { r with req := pa.2 }
    else if il.2.force_comp || !(plane_check_layer_fb plane il.2) then
      { r with req := pa.2.take cur }
    else if ctx.testOk pa.2 then
      let r2 := next (plane_step_init_next ctx step plane (some il))
        { r with req := pa.2 }
      { r2 with req := r2.req.take cur }
    else
      { r with req := pa.2.take cur }

/-- The layer loop of output_layers_choose. -/
def choose_layers (ctx : SearchCtx) (plane : Plane)
    (next : Step → SRes → SRes) (cur : Nat) (step : Step) :
    List (Nat × Layer) → SRes → SRes
  | [], r => r
  | il :: ls, r =>
      choose_layers ctx plane next cur step ls
        (choose_try ctx plane next cur step il r)

/-- output_layers_choose, parameterized by whether the upper-bound pruning
step is present.  At the end of the plane list the assignment is recorded
when it beats the best score and is valid; otherwise the plane is skipped
when busy or on a foreign CRTC, each admissible layer branch is explored,
and the skip branch is always explored; the request is restored to the
entry cursor before returning. -/
def output_layers_choose (prune : Bool) (ctx : SearchCtx) :
    List Plane → Step → SRes → SRes
  | [], step, r =>
      if step.score > r.best_score && alloc_valid_get ctx step then
        { r with best_score := step.score
                 best := step.alloc.map (Option.map Prod.fst) }
      else r
  | plane :: rest, step, r =>
      let rplanes : Nat := ctx.planes_len - step.alloc.length
      if prune && decide (r.best_score ≥ step.score + (rplanes : Int)) then r
      else
        let cur := r.req.length
        let r1 :=
          if plane.layer.isSome ||
             (plane.possible_crtcs &&& (1 <<< ctx.crtc_index)) == 0 then r
          else
            choose_layers ctx plane
              (fun st rr => output_layers_choose prune ctx rest st rr) cur step
              ctx.layers r
        let r2 := output_layers_choose prune ctx rest
          (plane_step_init_next ctx step plane none) r1
        { r2 with req := r2.req.take cur }
  termination_by ps => ps.length

/-! ### Shape lemmas for plane_apply inside the search -/

theorem plane_prop_kind_check_cases (dprop : DProp) (value : Nat) :
    plane_prop_kind_check dprop value = 0 ∨
    plane_prop_kind_check dprop value = -EINVAL := by
  rw [plane_prop_kind_check]
  split
  · rw [plane_prop_range_check]; split
    · exact Or.inr rfl
    · exact Or.inl rfl
  split
  · rw [plane_prop_enum_check]; split
    · exact Or.inl rfl
    · exact Or.inr rfl
  split
  · rw [plane_prop_bitmask_check]; split
    · exact Or.inr rfl
    · exact Or.inl rfl
  split
  · rw [plane_prop_signed_range_check]; split
    · exact Or.inr rfl
    · exact Or.inl rfl
  · exact Or.inl rfl

theorem plane_prop_set_fail_shape (plane : Plane) (req : Req) (index value : Nat) :
    (plane_prop_set plane req index value).1 = 0 ∨
    ((plane_prop_set plane req index value).1 = -EINVAL ∧
      (plane_prop_set plane req index value).2 = req) := by
  rw [plane_prop_set]
  split
  · exact Or.inr ⟨rfl, rfl⟩
  · split
    · exact Or.inr ⟨rfl, rfl⟩
    · dsimp only
      split
      · rename_i prop heq him hr
        rcases plane_prop_kind_check_cases prop.dprop value with h | h
        · rw [h] at hr
          exact absurd hr (by decide)
        · exact Or.inr ⟨h, rfl⟩
      · exact Or.inl rfl

theorem plane_apply_props_shape (plane : Plane) (c : Nat) :
    ∀ (props : List PropVal) (req : Req), c ≤ req.length →
    ((plane_apply_props plane c props req).1 = 0 ∧
      ∃ t, (plane_apply_props plane c props req).2 = req ++ t) ∨
    ((plane_apply_props plane c props req).1 = -EINVAL ∧
      (plane_apply_props plane c props req).2 = req.take c) := by
  intro props
  induction props with
  | nil =>
      intro req _
      exact Or.inl ⟨rfl, [], (List.append_nil req).symm⟩
  | cons lp rest ih =>
      intro req hc
      rw [plane_apply_props]
      by_cases hz : (lp.index == PROP_ZPOS) = true
      · rw [if_pos hz]; exact ih req hc
      · rw [if_neg hz]
        cases hp : plane_property_get plane lp.index with
        | none =>
            by_cases htol : plane_apply_tolerated lp = true
            · rw [if_pos htol]; exact ih req hc
            · rw [if_neg htol]; exact Or.inr ⟨rfl, rfl⟩
        | some pprop =>
            simp only [plane_property_set]
            rw [if_neg (by simp)]
            rcases ih (req ++ [(plane.id, pprop.id, lp.value)])
                (le_trans hc (by simp)) with ⟨h0, t, ht⟩ | ⟨he, ht⟩
            · exact Or.inl ⟨h0, [(plane.id, pprop.id, lp.value)] ++ t,
                by rw [ht, List.append_assoc]⟩
            · exact Or.inr ⟨he, by rw [ht, List.take_append_of_le_length hc]⟩

theorem plane_apply_some_shape (plane : Plane) (layer : Layer) (crtc : Nat)
    (req : Req) :
    ((plane_apply plane (some layer) crtc req).1 = 0 ∧
      ∃ t, (plane_apply plane (some layer) crtc req).2 = req ++ t) ∨
    ((plane_apply plane (some layer) crtc req).1 = -EINVAL ∧
      (plane_apply plane (some layer) crtc req).2 = req) := by
  rw [plane_apply]
  rcases plane_prop_set_fail_shape plane req PROP_CRTC_ID crtc with h0 | ⟨he, hr⟩
  · rcases plane_prop_set_shape plane req PROP_CRTC_ID crtc with ⟨hne, _⟩ | ⟨_, x, hx⟩
    · exact absurd h0 hne
    · rw [if_neg (by simp [h0])]
      rw [hx]
      rcases plane_apply_props_shape plane req.length layer.props
          (req ++ [x]) (by simp) with ⟨ha, t, ht⟩ | ⟨ha, ht⟩
      · exact Or.inl ⟨ha, [x] ++ t, by rw [ht, List.append_assoc]⟩
      · exact Or.inr ⟨ha, by rw [ht, List.take_left]⟩
  · rw [if_pos (by simp [he]; decide)]
    exact Or.inr ⟨he, hr⟩

/-! ### The search preserves the request (cursor discipline) -/

theorem choose_try_req (ctx : SearchCtx) (plane : Plane)
    (next : Step → SRes → SRes) (cur : Nat) (step : Step) (il : Nat × Layer)
    (r : SRes)
    (hnext : ∀ st rr, (next st rr).req = rr.req)
    (hcur : cur = r.req.length) :
    (choose_try ctx plane next cur step il r).req = r.req := by
  rw [choose_try]
  split
  · rfl
  split
  · rfl
  split
  · rfl
  dsimp only
  rcases plane_apply_some_shape plane il.2 ctx.crtc_id r.req with
    ⟨h0, t, ht⟩ | ⟨he, hr⟩
  · rw [if_neg (by rw [h0]; decide)]
    have hx : (plane_apply plane (some il.2) ctx.crtc_id r.req).2.take cur = r.req := by
      rw [ht, hcur]
      exact List.take_left r.req t
    split
    · exact hx
    split
    · show ((next (plane_step_init_next ctx step plane (some il))
        { r with req := (plane_apply plane (some il.2) ctx.crtc_id r.req).2 }).req.take cur)
        = r.req
      rw [hnext]
      exact hx
    · exact hx
  · rw [if_pos (by rw [he]; decide)]
    exact hr

theorem choose_layers_req (ctx : SearchCtx) (plane : Plane)
    (next : Step → SRes → SRes) (cur : Nat) (step : Step)
    (hnext : ∀ st rr, (next st rr).req = rr.req) :
    ∀ (ls : List (Nat × Layer)) (r : SRes), cur = r.req.length →
      (choose_layers ctx plane next cur step ls r).req = r.req := by
  intro ls
  induction ls with
  | nil => intro r _; rfl
  | cons il ls ih =>
      intro r hcur
      rw [choose_layers]
      have h1 := choose_try_req ctx plane next cur step il r hnext hcur
      rw [ih _ (by rw [h1]; exact hcur)]
      exact h1

theorem output_layers_choose_req (prune : Bool) (ctx : SearchCtx) :
    ∀ (ps : List Plane) (step : Step) (r : SRes),
      (output_layers_choose prune ctx ps step r).req = r.req := by
  intro ps
  induction ps with
  | nil =>
      intro step r
      rw [output_layers_choose]
      split
      · rfl
      · rfl
  | cons plane rest ih =>
      intro step r
      rw [output_layers_choose]
      dsimp only
      split
      · rfl
      · show ((output_layers_choose prune ctx rest _ _).req.take r.req.length) = r.req
        rw [ih]
        split
        · rw [List.take_length]
        · rw [choose_layers_req ctx plane
            (fun st rr => output_layers_choose prune ctx rest st rr) r.req.length step
            (fun st rr => ih st rr) ctx.layers r rfl]
          rw [List.take_length]

/-! ### A search whose bound is already met changes nothing -/

theorem plane_step_init_next_score (ctx : SearchCtx) (step : Step)
    (plane : Plane) (ol : Option (Nat × Layer)) :
    (plane_step_init_next ctx step plane ol).score = step.score ∨
    (plane_step_init_next ctx step plane ol).score = step.score + 1 := by
  rw [plane_step_init_next.eq_def]
  cases ol with
  | none => exact Or.inl rfl
  | some il =>
      by_cases h : (ctx.comp_layer == some il.1) = true
      · exact Or.inl (by simp [h])
      · exact Or.inr (by simp [h])

theorem plane_step_init_next_alloc_length (ctx : SearchCtx) (step : Step)
    (plane : Plane) (ol : Option (Nat × Layer)) :
    (plane_step_init_next ctx step plane ol).alloc.length =
      step.alloc.length + 1 := by
  rw [plane_step_init_next.eq_def]
  simp

theorem choose_try_frozen (ctx : SearchCtx) (plane : Plane)
    (next : Step → SRes → SRes) (cur : Nat) (step : Step) (il : Nat × Layer)
    (r : SRes)
    (hnext : ∀ rr : SRes, rr.best_score = r.best_score →
      next (plane_step_init_next ctx step plane (some il)) rr = rr)
    (hcur : cur = r.req.length) :
    choose_try ctx plane next cur step il r = r := by
  rw [choose_try]
  split
  · rfl
  split
  · rfl
  split
  · rfl
  dsimp only
  rcases plane_apply_some_shape plane il.2 ctx.crtc_id r.req with
    ⟨h0, t, ht⟩ | ⟨he, hr⟩
  · rw [if_neg (by rw [h0]; decide)]
    have hx : (plane_apply plane (some il.2) ctx.crtc_id r.req).2.take cur = r.req := by
      rw [ht, hcur]
      exact List.take_left r.req t
    split
    · rw [hx]
    split
    · rw [hnext { r with req := (plane_apply plane (some il.2) ctx.crtc_id r.req).2 } rfl]
      rw [hx]
    · rw [hx]
  · rw [if_pos (by rw [he]; decide)]
    rw [hr]

theorem choose_layers_frozen (ctx : SearchCtx) (plane : Plane)
    (next : Step → SRes → SRes) (cur : Nat) (step : Step) (r : SRes)
    (hnext : ∀ (il : Nat × Layer) (rr : SRes), rr.best_score = r.best_score →
      next (plane_step_init_next ctx step plane (some il)) rr = rr)
    (hcur : cur = r.req.length) :
    ∀ ls : List (Nat × Layer), choose_layers ctx plane next cur step ls r = r := by
  intro ls
  induction ls with
  | nil => rfl
  | cons il ls ih =>
      rw [choose_layers, choose_try_frozen ctx plane next cur step il r
        (hnext il) hcur]
      exact ih

theorem choose_frozen (prune : Bool) (ctx : SearchCtx) :
    ∀ (ps : List Plane) (step : Step) (r : SRes),
      r.best_score ≥ step.score + (ps.length : Int) →
      output_layers_choose prune ctx ps step r = r := by
  intro ps
  induction ps with
  | nil =>
      intro step r h
      rw [output_layers_choose]
      rw [if_neg ?_]
      simp only [Bool.and_eq_true, decide_eq_true_eq]
      rintro ⟨h1, _⟩
      simp only [List.length_nil, Nat.cast_zero, add_zero] at h
      omega
  | cons plane rest ih =>
      intro step r h
      rw [output_layers_choose]
      dsimp only
      split
      · rfl
      · have hnext : ∀ (il : Nat × Layer) (rr : SRes),
            rr.best_score = r.best_score →
            output_layers_choose prune ctx rest
              (plane_step_init_next ctx step plane (some il)) rr = rr := by
          intro il rr hrr
          apply ih
          rcases plane_step_init_next_score ctx step plane (some il) with hs | hs <;>
            · rw [hs, hrr]
              simp only [List.length_cons] at h
              push_cast at h ⊢
              omega
        have h2 : output_layers_choose prune ctx rest
            (plane_step_init_next ctx step plane none) r = r := by
          apply ih
          rcases plane_step_init_next_score ctx step plane none with hs | hs <;>
            · rw [hs]
              simp only [List.length_cons] at h
              push_cast at h ⊢
              omega
        split
        · rw [h2, List.take_length]
        · rw [choose_layers_frozen ctx plane
            (fun st rr => output_layers_choose prune ctx rest st rr)
            r.req.length step r hnext rfl ctx.layers]
          rw [h2, List.take_length]

/-! ### The two pruning variants coincide (C5) -/

theorem choose_try_congr (ctx : SearchCtx) (plane : Plane)
    (next1 next2 : Step → SRes → SRes) (cur : Nat) (step : Step)
    (il : Nat × Layer)
    (h : ∀ rr, next1 (plane_step_init_next ctx step plane (some il)) rr =
      next2 (plane_step_init_next ctx step plane (some il)) rr) :
    ∀ r, choose_try ctx plane next1 cur step il r =
      choose_try ctx plane next2 cur step il r := by
  intro r
  rw [choose_try, choose_try]
  split
  · rfl
  split
  · rfl
  split
  · rfl
  dsimp only
  split
  · rfl
  split
  · rfl
  split
  · rw [h]
  · rfl

theorem choose_layers_congr (ctx : SearchCtx) (plane : Plane)
    (next1 next2 : Step → SRes → SRes) (cur : Nat) (step : Step)
    (h : ∀ (il : Nat × Layer) rr,
      next1 (plane_step_init_next ctx step plane (some il)) rr =
      next2 (plane_step_init_next ctx step plane (some il)) rr) :
    ∀ (ls : List (Nat × Layer)) (r : SRes),
      choose_layers ctx plane next1 cur step ls r =
      choose_layers ctx plane next2 cur step ls r := by
  intro ls
  induction ls with
  | nil => intro r; rfl
  | cons il ls ih =>
      intro r
      rw [choose_layers, choose_layers,
        choose_try_congr ctx plane next1 next2 cur step il (h il) r]
      exact ih _

theorem choose_prune_equiv (ctx : SearchCtx) :
    ∀ (ps : List Plane) (step : Step) (r : SRes),
      ctx.planes_len = step.alloc.length + ps.length →
      output_layers_choose true ctx ps step r =
      output_layers_choose false ctx ps step r := by
  intro ps
  induction ps with
  | nil =>
      intro step r _
      rw [output_layers_choose, output_layers_choose]
  | cons plane rest ih =>
      intro step r h
      by_cases hp : (decide (r.best_score ≥ step.score +
          ((ctx.planes_len - step.alloc.length : Nat) : Int))) = true
      · rw [output_layers_choose]
        dsimp only
        rw [if_pos (by simp [hp])]
        simp only [List.length_cons] at h
        refine (choose_frozen false ctx (plane :: rest) step r ?_).symm
        have hd := of_decide_eq_true hp
        have hlen : ctx.planes_len - step.alloc.length = rest.length + 1 := by
          omega
        rw [hlen] at hd
        simp only [List.length_cons]
        push_cast at hd ⊢
        omega
      · rw [output_layers_choose]
        conv_rhs => rw [output_layers_choose]
        dsimp only
        rw [if_neg (by simp [hp])]
        simp only [Bool.false_and, Bool.false_eq_true, if_false]
        simp only [List.length_cons] at h
        have hnext : ∀ (il : Nat × Layer) (rr : SRes),
            output_layers_choose true ctx rest
              (plane_step_init_next ctx step plane (some il)) rr =
            output_layers_choose false ctx rest
              (plane_step_init_next ctx step plane (some il)) rr := by
          intro il rr
          apply ih
          rw [plane_step_init_next_alloc_length]
          omega
        have hCL := choose_layers_congr ctx plane
          (fun st rr => output_layers_choose true ctx rest st rr)
          (fun st rr => output_layers_choose false ctx rest st rr)
          r.req.length step hnext ctx.layers r
        rw [hCL]
        rw [ih (plane_step_init_next ctx step plane none) _ (by
          rw [plane_step_init_next_alloc_length]
          omega)]

/-- C5: running the allocator from the initial step with the upper-bound
pruning step produces the same best score as the same search with the
pruning step removed, for every device, output and oracle (the planes_len
field must describe the plane list, as liftoff_rpi_output_apply computes
it). -/
theorem c5_prune_equivalence (ctx : SearchCtx) (req : Req)
    (h : ctx.planes_len = ctx.planes.length) :
    (output_layers_choose true ctx ctx.planes alloc_step_init
      ⟨-1, List.replicate ctx.planes_len none, req⟩).best_score =
    (output_layers_choose false ctx ctx.planes alloc_step_init
      ⟨-1, List.replicate ctx.planes_len none, req⟩).best_score :=
  congrArg SRes.best_score
    (choose_prune_equiv ctx ctx.planes alloc_step_init
      ⟨-1, List.replicate ctx.planes_len none, req⟩
      (by simp [alloc_step_init, h]))

/-- A concrete search context with no planes and no layers. -/
def sampleSearchCtx : SearchCtx :=
  { planes := [], layers := [], comp_layer := none, crtc_id := 7, crtc_index := 0,
    planes_len := 0, has_comp_layer := false, non_comp_layers_len := 0,
    testOk := fun _ => true }

/-- Witness for c5_prune_equivalence at the concrete context. -/
theorem c5_prune_equivalence_witness :
    sampleSearchCtx.planes_len = sampleSearchCtx.planes.length ∧
    (output_layers_choose true sampleSearchCtx sampleSearchCtx.planes alloc_step_init
      ⟨-1, List.replicate sampleSearchCtx.planes_len none, []⟩).best_score =
    (output_layers_choose false sampleSearchCtx sampleSearchCtx.planes alloc_step_init
      ⟨-1, List.replicate sampleSearchCtx.planes_len none, []⟩).best_score :=
  ⟨rfl, c5_prune_equivalence sampleSearchCtx [] rfl⟩

/-! ### alloc.c: liftoff_rpi_output_apply -/

def LIFTOFF_RPI_PRIORITY_PERIOD : Int := 60
def DRM_MODE_PAGE_FLIP_EVENT : Nat := 1

/-- layer_cache_fb_info, with drmModeGetFB2 as an oracle from fb id to
descriptor; a failing query (EINVAL) leaves the zeroed descriptor in
place.  Other drmModeGetFB2 errnos, which would abort the caller, are not
modelled. -/
def layer_cache_fb_info (oracle : Nat → Option FBInfo) (layer : Layer) : Layer :=
  match layer_property_get layer PROP_FB_ID with
  | none => { layer with fb_info := FBInfo.zero }
  | some fb =>
      if fb.value == 0 then { layer with fb_info := FBInfo.zero }
      else if layer.fb_info.fb_id == fb.value then layer
      else
        match oracle fb.value with
        | none => layer
        | some info => { layer with fb_info := info }

/-- layers_fb_info_update: zero each cached descriptor, then re-cache. -/
def layers_fb_info_update (oracle : Nat → Option FBInfo) (st : OutputState) :
    OutputState :=
  { st with layers := st.layers.map (fun l =>
      layer_cache_fb_info oracle { l with fb_info := FBInfo.zero }) }

/-- layers_priority_update (the single modelled output). -/
def layers_priority_update (st : OutputState) : OutputState :=
  let counter := st.page_flip_counter + 1
  let elapsed := decide (counter ≥ LIFTOFF_RPI_PRIORITY_PERIOD)
  { st with
    page_flip_counter := if elapsed then 0 else counter
    layers := st.layers.map (fun l => layer_priority_update l elapsed) }

/-- device_test_commit: the verdict oracle over the request and the flags
with PAGE_FLIP_EVENT stripped (the TEST_ONLY bit and the EINTR retry are
inside the oracle; the diagnostic commit counter is omitted and the
distinct reject errnos are collapsed into the verdict). -/
def device_test_commit (testOk : Req → Nat → Bool) (req : Req) (flags : Nat) :
    Bool :=
  testOk req (flags &&& 0xFFFFFFFE)

/-- The loop of apply_current, with cur the cursor taken at entry. -/
def apply_current_go (st : OutputState) (cur : Nat) :
    List Plane → Req → Int × Req
  | [], req => (0, req)
  | p :: ps, req =>
      let pa := plane_apply p (p.layer.bind (fun li => st.layers.get? li))
        st.crtc_id req
      if pa.1 != 0 then (pa.1, pa.2.take cur)
      else apply_current_go st cur ps pa.2

/-- apply_current: restage every plane with its current binding. -/
def apply_current (st : OutputState) (req : Req) : Int × Req :=
  apply_current_go st req.length st.planes req

/-- reuse_prev_alloc.  A nonzero test-commit errno is collapsed to -EINVAL:
the caller only compares the result against 0. -/
def reuse_prev_alloc (testOk : Req → Nat → Bool) (st : OutputState)
    (req : Req) (flags : Nat) : Int × Req :=
  if st.layers_changed then (-EINVAL, req)
  else if st.layers.any layer_realloc_get then (-EINVAL, req)
  else
    let cur := req.length
    let ar := apply_current st req
    if ar.1 != 0 then ar
    else if device_test_commit testOk ar.2 flags then (0, ar.2)
    else (-EINVAL, ar.2.take cur)

/-- layers_mark_clean. -/
def layers_mark_clean (st : OutputState) : OutputState :=
  { st with layers_changed := false, layers := st.layers.map layer_clean }

/-- The binding-clearing loop of liftoff_rpi_output_apply (in the
single-output model every binding belongs to this output). -/
def clear_bindings (st : OutputState) : OutputState :=
  { st with
    planes := st.planes.map (fun p => { p with layer := none })
    layers := st.layers.map (fun l => { l with plane := none }) }

/-- The disable loop: stage a null layer on every unbound plane. -/
def disable_planes_go (st : OutputState) : List Plane → Req → Int × Req
  | [], req => (0, req)
  | p :: ps, req =>
      if p.layer.isSome then disable_planes_go st ps req
      else
        let pa := plane_apply p none st.crtc_id req
        if pa.1 != 0 then (pa.1, pa.2)
        else disable_planes_go st ps pa.2

def disable_unused_planes (st : OutputState) (req : Req) : Int × Req :=
  disable_planes_go st st.planes req

/-- The position of the last plane assigned a given layer index in the
best vector (the install loop overwrites, so the last position wins). -/
def bestPos : Nat → List (Option Nat) → Nat → Option Nat
  | _, [], _ => none
  | i, b :: bs, li =>
      match bestPos (i + 1) bs li with
      | some j => some j
      | none => if b == some li then some i else none

/-- The layer side of the installation loop. -/
def install_layers (best : List (Option Nat)) : Nat → List Layer → List Layer
  | _, [] => []
  | i, l :: ls =>
      (match bestPos 0 best i with
       | some pi => { l with plane := some pi }
       | none => l) :: install_layers best (i + 1) ls

/-- The plane side of the installation loop. -/
def install_planes (best : List (Option Nat)) : Nat → List Plane → List Plane
  | _, [] => []
  | i, p :: ps =>
      (match best.getD i none with
       | some li => { p with layer := some li }
       | none => p) :: install_planes best (i + 1) ps

/-- Install the best mapping into the plane and layer bindings. -/
def install_bindings (st : OutputState) (best : List (Option Nat)) :
    OutputState :=
  { st with
    planes := install_planes best 0 st.planes
    layers := install_layers best 0 st.layers }

/-- liftoff_rpi_output_apply: priority update, framebuffer refresh, reuse
attempt, otherwise clear bindings, disable unbound planes, run the search
(with pruning), install the best mapping, restage and mark clean.  The
candidate memo reset, counters and logging are omitted; allocation of the
scratch vectors cannot fail in the model; the modelled search returns no
fatal errors because plane_apply staging and the test oracle cannot
produce them. -/
def liftoff_rpi_output_apply (testOk : Req → Nat → Bool)
    (fbOracle : Nat → Option FBInfo) (st : OutputState) (req : Req)
    (flags : Nat) : Int × OutputState × Req :=
  let st1 := layers_fb_info_update fbOracle (layers_priority_update st)
  let rr := reuse_prev_alloc testOk st1 req flags
  if rr.1 == 0 then (0, st1, rr.2)
  else
    let st2 := clear_bindings st1
    let dr := disable_unused_planes st2 rr.2
    if dr.1 != 0 then (dr.1, st2, dr.2)
    else
      let ctx := result_init st2 (fun q => device_test_commit testOk q flags)
      let r := output_layers_choose true ctx st2.planes alloc_step_init
        ⟨-1, List.replicate ctx.planes_len none, dr.2⟩
      let st3 := install_bindings st2 r.best
      let ar := apply_current st3 r.req
      if ar.1 != 0 then (ar.1, st3, ar.2)
      else (0, layers_mark_clean st3, ar.2)

/-! ### C1: cleanliness after apply -/

/-- A state with one PRIMARY plane (FB_ID and CRTC_ID mutable) and one
layer holding only FB_DAMAGE_CLIPS with value 5 against snapshot 0. -/
def sampleApplyState : OutputState :=
  { layers := [⟨[⟨PROP_FB_DAMAGE_CLIPS, 5, 0⟩], false, false,
      FBInfo.zero, FBInfo.zero, none, 0, 0⟩]
    comp_layer := none
    layers_changed := false
    planes := [⟨1, DRM_PLANE_TYPE_PRIMARY, 0, 1, none,
      [⟨PROP_FB_ID, 20, dpropFree⟩, ⟨PROP_CRTC_ID, 21, dpropFree⟩], none⟩]
    page_flip_counter := 0
    crtc_id := 7
    crtc_index := 0 }

/-- C1 counterexample: the apply succeeds through the reuse fast path (the
damage-clip change is harmless), yet a property of the surviving layer
still has a previous-value snapshot (0) different from its current value
(5): the reuse path does not re-mark layers clean. -/
theorem c1_counterexample :
    (liftoff_rpi_output_apply (fun _ _ => true) (fun _ => none)
      sampleApplyState [] 0).1 = 0 ∧
    ¬(∀ l ∈ (liftoff_rpi_output_apply (fun _ _ => true) (fun _ => none)
        sampleApplyState [] 0).2.1.layers,
      ∀ p ∈ l.props, p.prev_value = p.value) := by decide

theorem layer_clean_changed (l : Layer) : (layer_clean l).changed = false := rfl

theorem layer_clean_props (l : Layer) :
    ∀ p ∈ (layer_clean l).props, p.prev_value = p.value := by
  intro p hp
  rw [layer_clean] at hp
  simp only [List.mem_map] at hp
  obtain ⟨q, _, rfl⟩ := hp
  rfl

theorem reuse_ok_guard (testOk : Req → Nat → Bool) (st : OutputState)
    (req : Req) (flags : Nat)
    (h : (reuse_prev_alloc testOk st req flags).1 = 0) :
    st.layers_changed = false ∧ ∀ l ∈ st.layers, layer_realloc_get l = false := by
  rw [reuse_prev_alloc] at h
  split at h
  · exact absurd h (by norm_num [EINVAL])
  · split at h
    · exact absurd h (by norm_num [EINVAL])
    · rename_i h1 h2
      simp only [Bool.not_eq_true] at h1 h2
      refine ⟨h1, ?_⟩
      intro l hl
      rw [List.any_eq_false] at h2
      simpa using h2 l hl

theorem apply_ok_cases (testOk : Req → Nat → Bool)
    (fbOracle : Nat → Option FBInfo) (st : OutputState) (req : Req)
    (flags : Nat)
    (hok : (liftoff_rpi_output_apply testOk fbOracle st req flags).1 = 0) :
    ((reuse_prev_alloc testOk
        (layers_fb_info_update fbOracle (layers_priority_update st)) req flags).1 = 0 ∧
      (liftoff_rpi_output_apply testOk fbOracle st req flags).2.1 =
        layers_fb_info_update fbOracle (layers_priority_update st)) ∨
    ((reuse_prev_alloc testOk
        (layers_fb_info_update fbOracle (layers_priority_update st)) req flags).1 ≠ 0 ∧
      ∃ st3, (liftoff_rpi_output_apply testOk fbOracle st req flags).2.1 =
        layers_mark_clean st3) := by
  unfold liftoff_rpi_output_apply at hok ⊢
  dsimp only at hok ⊢
  split at hok
  · rename_i hrc
    simp only [if_pos hrc]
    exact Or.inl ⟨by simpa using hrc, by trivial⟩
  · rename_i hrc
    simp only [Bool.not_eq_true] at hrc
    simp only [hrc, Bool.false_eq_true, if_false]
    refine Or.inr ⟨by simpa using hrc, ?_⟩
    split at hok
    · rename_i hdc
      exact absurd hok (by simpa using hdc)
    · rename_i hdc
      simp only [Bool.not_eq_true] at hdc
      simp only [hdc, Bool.false_eq_true, if_false]
      split at hok
      · rename_i hac
        exact absurd hok (by simpa using hac)
      · rename_i hac
        simp only [Bool.not_eq_true] at hac
        simp only [hac, Bool.false_eq_true, if_false]
        apply Exists.intro
        rfl

/-- C1 (amended): after an apply that returns ok, every layer has a clear
changed flag; when the reuse fast path was not taken (the full search
ran), additionally layers_changed is clear and every previous-value
snapshot equals its current value.  On the reuse fast path the snapshots
of harmlessly changed properties may still differ (see the
counterexample). -/
theorem c1_apply_clean (testOk : Req → Nat → Bool)
    (fbOracle : Nat → Option FBInfo) (st : OutputState) (req : Req)
    (flags : Nat)
    (hok : (liftoff_rpi_output_apply testOk fbOracle st req flags).1 = 0) :
    (∀ l ∈ (liftoff_rpi_output_apply testOk fbOracle st req flags).2.1.layers,
      l.changed = false) ∧
    ((reuse_prev_alloc testOk
        (layers_fb_info_update fbOracle (layers_priority_update st)) req flags).1 ≠ 0 →
      (liftoff_rpi_output_apply testOk fbOracle st req flags).2.1.layers_changed
        = false ∧
      ∀ l ∈ (liftoff_rpi_output_apply testOk fbOracle st req flags).2.1.layers,
        ∀ p ∈ l.props, p.prev_value = p.value) := by
  rcases apply_ok_cases testOk fbOracle st req flags hok with
    ⟨hr0, hst⟩ | ⟨hrne, st3, hst⟩
  · obtain ⟨_, hre⟩ := reuse_ok_guard _ _ _ _ hr0
    constructor
    · intro l hl
      have := hre l (by rw [← hst]; exact hl)
      rw [layer_realloc_get] at this
      exact (Bool.or_eq_false_iff.mp this).1
    · intro hne
      exact absurd hr0 hne
  · constructor
    · intro l hl
      rw [hst, layers_mark_clean] at hl
      simp only [List.mem_map] at hl
      obtain ⟨q, _, rfl⟩ := hl
      rfl
    · intro _
      refine ⟨by rw [hst]; rfl, ?_⟩
      intro l hl
      rw [hst, layers_mark_clean] at hl
      simp only [List.mem_map] at hl
      obtain ⟨q, _, rfl⟩ := hl
      exact layer_clean_props q

/-- Witness for c1_apply_clean at the concrete reuse-path state. -/
theorem c1_apply_clean_witness :
    (liftoff_rpi_output_apply (fun _ _ => true) (fun _ => none)
      sampleApplyState [] 0).1 = 0 ∧
    ((∀ l ∈ (liftoff_rpi_output_apply (fun _ _ => true) (fun _ => none)
        sampleApplyState [] 0).2.1.layers, l.changed = false) ∧
    ((reuse_prev_alloc (fun _ _ => true)
        (layers_fb_info_update (fun _ => none)
          (layers_priority_update sampleApplyState)) [] 0).1 ≠ 0 →
      (liftoff_rpi_output_apply (fun _ _ => true) (fun _ => none)
        sampleApplyState [] 0).2.1.layers_changed = false ∧
      ∀ l ∈ (liftoff_rpi_output_apply (fun _ _ => true) (fun _ => none)
          sampleApplyState [] 0).2.1.layers,
        ∀ p ∈ l.props, p.prev_value = p.value)) :=
  ⟨by decide, c1_apply_clean (fun _ _ => true) (fun _ => none)
    sampleApplyState [] 0 (by decide)⟩

/-! ### C7: the composition layer is only placed on a PRIMARY plane -/

/-- The compatibility check refuses the composition layer on a plane whose
type is not PRIMARY (the third rejection branch of
layer_plane_compatible_get). -/
theorem compatible_comp_primary (ctx : SearchCtx) (step : Step) (li : Nat)
    (layer : Layer) (plane : Plane)
    (hcomp : ctx.comp_layer = some li)
    (h : layer_plane_compatible_get ctx step li layer plane = true) :
    plane.type = DRM_PLANE_TYPE_PRIMARY := by
  by_contra hne
  rw [layer_plane_compatible_get] at h
  split at h
  · exact absurd h (by simp)
  · dsimp only at h
    split at h
    · exact absurd h (by simp)
    · split at h
      · exact absurd h (by simp)
      · split at h
        · exact absurd h (by simp)
        · rename_i hB
          apply hB
          rw [hcomp]
          simp [bne_iff_ne, hne]

/-- The binding invariant of the spec: every plane bound to the composition
layer of the output has PRIMARY type. -/
def comp_bound_primary (st : OutputState) : Bool :=
  match st.comp_layer with
  | none => true
  | some ci =>
      st.planes.all (fun p =>
        !(p.layer == some ci) || (p.type == DRM_PLANE_TYPE_PRIMARY))

/-- Over the zip of a plane list with a best vector, every plane paired
with the composition layer index has PRIMARY type. -/
def comp_primary_ok (ci : Nat) (planes : List Plane)
    (bs : List (Option Nat)) : Prop :=
  ∀ pr ∈ planes.zip bs, pr.2 = some ci → pr.1.type = DRM_PLANE_TYPE_PRIMARY

theorem zip_append_eq {α β : Type} :
    ∀ (l1 : List α) (l2 : List β) (t1 : List α) (t2 : List β),
      l1.length = l2.length →
      (l1 ++ t1).zip (l2 ++ t2) = l1.zip l2 ++ t1.zip t2 := by
  intro l1
  induction l1 with
  | nil =>
      intro l2 t1 t2 h
      cases l2 with
      | nil => rfl
      | cons b l2 => simp at h
  | cons a l1 ih =>
      intro l2 t1 t2 h
      cases l2 with
      | nil => simp at h
      | cons b l2 =>
          simp only [List.cons_append, List.zip_cons_cons]
          rw [ih l2 t1 t2 (by simpa using h)]

theorem comp_primary_ok_snoc (ci : Nat) (front : List Plane) (plane : Plane)
    (rest : List Plane) (am : List (Option Nat)) (x : Option Nat)
    (hlen : front.length = am.length)
    (h : comp_primary_ok ci (front ++ plane :: rest) am)
    (hx : x = some ci → plane.type = DRM_PLANE_TYPE_PRIMARY) :
    comp_primary_ok ci (front ++ plane :: rest) (am ++ [x]) := by
  have hz : (front ++ plane :: rest).zip (am ++ [x]) =
      front.zip am ++ [(plane, x)] := by
    rw [zip_append_eq front am (plane :: rest) [x] hlen]
    simp
  have hz0 : (front ++ plane :: rest).zip am = front.zip am := by
    have h2 := zip_append_eq front am (plane :: rest) [] hlen
    simpa using h2
  intro pr hpr hp2
  rw [hz] at hpr
  rcases List.mem_append.mp hpr with hpr | hpr
  · exact h pr (by rw [hz0]; exact hpr) hp2
  · have he : pr = (plane, x) := by simpa using hpr
    subst he
    exact hx hp2

theorem comp_primary_ok_get (ci : Nat) :
    ∀ (ps : List Plane) (bs : List (Option Nat)),
      comp_primary_ok ci ps bs →
      ∀ (k : Nat) (p : Plane), ps.get? k = some p →
        bs.getD k none = some ci → p.type = DRM_PLANE_TYPE_PRIMARY := by
  intro ps
  induction ps with
  | nil =>
      intro bs _ k p hp _
      simp at hp
  | cons q ps ih =>
      intro bs h k p hp hb
      cases bs with
      | nil => simp [List.getD] at hb
      | cons b bs =>
          cases k with
          | zero =>
              have hq : q = p := by simpa using hp
              have hb0 : b = some ci := by simpa [List.getD] using hb
              subst hq
              exact h (q, b)
                (by rw [List.zip_cons_cons]; exact List.mem_cons_self _ _) hb0
          | succ k =>
              refine ih bs (fun pr hpr hp2 => h pr ?_ hp2) k p
                (by simpa using hp) (by simpa [List.getD] using hb)
              rw [List.zip_cons_cons]
              exact List.mem_cons_of_mem _ hpr

theorem install_planes_inv (ci : Nat) (bs : List (Option Nat)) :
    ∀ (ps : List Plane) (i : Nat),
      (∀ p ∈ ps, p.layer = none) →
      (∀ (k : Nat) (p : Plane), ps.get? k = some p →
        bs.getD (i + k) none = some ci → p.type = DRM_PLANE_TYPE_PRIMARY) →
      ∀ q ∈ install_planes bs i ps, q.layer = some ci →
        q.type = DRM_PLANE_TYPE_PRIMARY := by
  intro ps
  induction ps with
  | nil =>
      intro i _ _ q hq
      rw [install_planes] at hq
      exact absurd hq (List.not_mem_nil q)
  | cons p ps ih =>
      intro i hnone hcond q hq hl
      rw [install_planes] at hq
      rcases List.mem_cons.mp hq with hq | hq
      · rcases hbd : bs.getD i none with _ | li
        · rw [hbd] at hq
          dsimp only at hq
          subst hq
          rw [hnone q (List.mem_cons_self q ps)] at hl
          exact absurd hl (by simp)
        · rw [hbd] at hq
          dsimp only at hq
          subst hq
          have hli : li = ci := by simpa using hl
          subst hli
          exact hcond 0 p rfl (by rw [Nat.add_zero]; exact hbd)
      · exact ih (i + 1)
          (fun p2 hp2 => hnone p2 (List.mem_cons_of_mem _ hp2))
          (fun k p2 hk hb => hcond (k + 1) p2 (by simpa using hk)
            (by rw [show i + (k + 1) = i + 1 + k from by omega]; exact hb))
          q hq hl

theorem comp_bound_primary_intro (st : OutputState)
    (h : ∀ ci, st.comp_layer = some ci →
      ∀ p ∈ st.planes, p.layer = some ci → p.type = DRM_PLANE_TYPE_PRIMARY) :
    comp_bound_primary st = true := by
  rw [comp_bound_primary.eq_def]
  rcases hc : st.comp_layer with _ | ci
  · rfl
  · dsimp only
    rw [List.all_eq_true]
    intro p hp
    simp only [Bool.or_eq_true, Bool.not_eq_true', beq_eq_false_iff_ne,
      beq_iff_eq]
    by_cases hl : p.layer = some ci
    · exact Or.inr (h ci hc p hp hl)
    · exact Or.inl hl

theorem comp_bound_primary_congr (t s : OutputState)
    (hp : t.planes = s.planes) (hc : t.comp_layer = s.comp_layer) :
    comp_bound_primary t = comp_bound_primary s := by
  rw [comp_bound_primary.eq_def, comp_bound_primary.eq_def, hp, hc]

theorem comp_bound_primary_mark_clean (st : OutputState) :
    comp_bound_primary (layers_mark_clean st) = comp_bound_primary st :=
  comp_bound_primary_congr (layers_mark_clean st) st rfl rfl

theorem plane_step_init_next_alloc (ctx : SearchCtx) (step : Step)
    (plane : Plane) (ol : Option (Nat × Layer)) :
    (plane_step_init_next ctx step plane ol).alloc = step.alloc ++ [ol] := by
  rw [plane_step_init_next.eq_def]

theorem choose_try_best_pred (P : List (Option Nat) → Prop)
    (ctx : SearchCtx) (plane : Plane) (next : Step → SRes → SRes) (cur : Nat)
    (step : Step) (il : Nat × Layer) (r : SRes)
    (hnext : layer_plane_compatible_get ctx step il.1 il.2 plane = true →
      ∀ rr : SRes, P rr.best →
        P (next (plane_step_init_next ctx step plane (some il)) rr).best)
    (hr : P r.best) :
    P (choose_try ctx plane next cur step il r).best := by
  rw [choose_try]
  split
  · exact hr
  split
  · exact hr
  split
  · exact hr
  rename_i hcompat
  dsimp only
  split
  · exact hr
  split
  · exact hr
  split
  · exact hnext (by simpa using hcompat) _ hr
  · exact hr

theorem choose_layers_best_pred (P : List (Option Nat) → Prop)
    (ctx : SearchCtx) (plane : Plane) (next : Step → SRes → SRes) (cur : Nat)
    (step : Step)
    (hnext : ∀ il : Nat × Layer,
      layer_plane_compatible_get ctx step il.1 il.2 plane = true →
      ∀ rr : SRes, P rr.best →
        P (next (plane_step_init_next ctx step plane (some il)) rr).best) :
    ∀ (ls : List (Nat × Layer)) (r : SRes), P r.best →
      P (choose_layers ctx plane next cur step ls r).best := by
  intro ls
  induction ls with
  | nil => intro r hr; exact hr
  | cons il ls ih =>
      intro r hr
      rw [choose_layers]
      exact ih _
        (choose_try_best_pred P ctx plane next cur step il r (hnext il) hr)

theorem choose_best_inv (prune : Bool) (ctx : SearchCtx) (ci : Nat)
    (hcomp : ctx.comp_layer = some ci) :
    ∀ (ps front : List Plane) (step : Step) (r : SRes),
      ctx.planes = front ++ ps →
      front.length = step.alloc.length →
      comp_primary_ok ci ctx.planes (step.alloc.map (Option.map Prod.fst)) →
      comp_primary_ok ci ctx.planes r.best →
      comp_primary_ok ci ctx.planes
        (output_layers_choose prune ctx ps step r).best := by
  intro ps
  induction ps with
  | nil =>
      intro front step r hsp hlen hstep hr
      rw [output_layers_choose]
      split
      · exact hstep
      · exact hr
  | cons plane rest ih =>
      intro front step r hsp hlen hstep hr
      rw [output_layers_choose]
      dsimp only
      split
      · exact hr
      · have hsp2 : ctx.planes = (front ++ [plane]) ++ rest := by
          rw [hsp, List.append_cons]
        have hlen2 : ∀ ol : Option (Nat × Layer), (front ++ [plane]).length =
            (plane_step_init_next ctx step plane ol).alloc.length := by
          intro ol
          rw [plane_step_init_next_alloc_length, List.length_append,
            List.length_singleton, hlen]
        have hstep2 : comp_primary_ok ci (front ++ plane :: rest)
            (step.alloc.map (Option.map Prod.fst)) := by
          rw [← hsp]; exact hstep
        have hchild : ∀ ol : Option (Nat × Layer),
            (Option.map Prod.fst ol = some ci →
              plane.type = DRM_PLANE_TYPE_PRIMARY) →
            comp_primary_ok ci ctx.planes
              ((plane_step_init_next ctx step plane ol).alloc.map
                (Option.map Prod.fst)) := by
          intro ol hol
          rw [plane_step_init_next_alloc]
          simp only [List.map_append, List.map_cons, List.map_nil]
          rw [hsp]
          exact comp_primary_ok_snoc ci front plane rest _ _
            (by rw [List.length_map]; exact hlen) hstep2 hol
        have hnext : ∀ (il : Nat × Layer),
            layer_plane_compatible_get ctx step il.1 il.2 plane = true →
            ∀ rr : SRes, comp_primary_ok ci ctx.planes rr.best →
              comp_primary_ok ci ctx.planes
                (output_layers_choose prune ctx rest
                  (plane_step_init_next ctx step plane (some il)) rr).best := by
          intro il hcpt rr hrr
          refine ih (front ++ [plane]) _ rr hsp2 (hlen2 _) (hchild _ ?_) hrr
          intro hsome
          have hli : il.1 = ci := by simpa using hsome
          exact compatible_comp_primary ctx step il.1 il.2 plane
            (by rw [hcomp, hli]) hcpt
        refine ih (front ++ [plane]) _ _ hsp2 (hlen2 _) (hchild _ ?_) ?_
        · intro hsome
          exact absurd hsome (by simp)
        · split
          · exact hr
          · exact choose_layers_best_pred _ ctx plane _ _ step hnext
              ctx.layers r hr

theorem search_best_comp (st2 : OutputState) (testOk2 : Req → Bool)
    (r0 : SRes)
    (hr0 : ∀ ci, st2.comp_layer = some ci →
      comp_primary_ok ci st2.planes r0.best)
    (ci : Nat) (hci : st2.comp_layer = some ci) :
    comp_primary_ok ci st2.planes
      (output_layers_choose true (result_init st2 testOk2) st2.planes
        alloc_step_init r0).best := by
  refine choose_best_inv true (result_init st2 testOk2) ci hci st2.planes []
    alloc_step_init r0 rfl rfl ?_ (hr0 ci hci)
  intro pr hpr hp2
  simp [alloc_step_init] at hpr

theorem install_comp_primary (st : OutputState) (bs : List (Option Nat))
    (hclear : ∀ p ∈ st.planes, p.layer = none)
    (h : ∀ ci, st.comp_layer = some ci → comp_primary_ok ci st.planes bs) :
    comp_bound_primary (install_bindings st bs) = true := by
  apply comp_bound_primary_intro
  intro ci hci q hq hl
  exact install_planes_inv ci bs st.planes 0 hclear
    (fun k p hk hb => comp_primary_ok_get ci st.planes bs (h ci hci) k p hk
      (by simpa using hb))
    q hq hl

theorem apply_comp_primary (testOk : Req → Nat → Bool)
    (fbOracle : Nat → Option FBInfo) (st : OutputState) (req : Req)
    (flags : Nat)
    (hpre : comp_bound_primary st = true)
    (hok : (liftoff_rpi_output_apply testOk fbOracle st req flags).1 = 0) :
    comp_bound_primary
      (liftoff_rpi_output_apply testOk fbOracle st req flags).2.1 = true := by
  unfold liftoff_rpi_output_apply at hok ⊢
  dsimp only at hok ⊢
  split at hok
  · rename_i hrc
    simp only [if_pos hrc]
    show comp_bound_primary
      (layers_fb_info_update fbOracle (layers_priority_update st)) = true
    rw [comp_bound_primary_congr
      (layers_fb_info_update fbOracle (layers_priority_update st)) st rfl rfl]
    exact hpre
  · rename_i hrc
    simp only [Bool.not_eq_true] at hrc
    simp only [hrc, Bool.false_eq_true, if_false]
    split at hok
    · rename_i hdc
      exact absurd hok (by simpa using hdc)
    · rename_i hdc
      simp only [Bool.not_eq_true] at hdc
      simp only [hdc, Bool.false_eq_true, if_false]
      split at hok
      · rename_i hac
        exact absurd hok (by simpa using hac)
      · rename_i hac
        simp only [Bool.not_eq_true] at hac
        simp only [hac, Bool.false_eq_true, if_false]
        rw [comp_bound_primary_mark_clean]
        apply install_comp_primary
        · intro p hp
          simp only [clear_bindings, List.mem_map] at hp
          obtain ⟨q, _, rfl⟩ := hp
          rfl
        · intro ci hci
          refine search_best_comp _ _ _ (fun ci2 _ => ?_) ci hci
          intro pr hpr hp2
          obtain ⟨x, y⟩ := pr
          dsimp only at hp2
          have hm := List.of_mem_zip hpr
          rw [List.eq_of_mem_replicate hm.2] at hp2
          exact absurd hp2 (by simp)

/-- C7: the compatibility check rejects placing the composition layer of
the output on any plane whose type is not PRIMARY, and consequently an
apply that returns ok keeps the invariant that a plane bound to the
composition layer is a PRIMARY plane.  The invariant is assumed of the
state entering apply, since the reuse fast path keeps the previous
bindings unchanged. -/
theorem c7_composition_primary :
    (∀ (ctx : SearchCtx) (step : Step) (li : Nat) (layer : Layer)
        (plane : Plane), ctx.comp_layer = some li →
      layer_plane_compatible_get ctx step li layer plane = true →
      plane.type = DRM_PLANE_TYPE_PRIMARY) ∧
    (∀ (testOk : Req → Nat → Bool) (fbOracle : Nat → Option FBInfo)
        (st : OutputState) (req : Req) (flags : Nat),
      comp_bound_primary st = true →
      (liftoff_rpi_output_apply testOk fbOracle st req flags).1 = 0 →
      comp_bound_primary
        (liftoff_rpi_output_apply testOk fbOracle st req flags).2.1 = true) :=
  ⟨fun ctx step li layer plane hcomp h =>
      compatible_comp_primary ctx step li layer plane hcomp h,
   fun testOk fbOracle st req flags hpre hok =>
      apply_comp_primary testOk fbOracle st req flags hpre hok⟩

/-- A copy of the reuse-path apply state whose composition layer is layer
0. -/
def sampleCompState : OutputState :=
  { sampleApplyState with comp_layer := some 0 }

/-- A layer holding only FB_DAMAGE_CLIPS, for the compatibility
witness. -/
def sampleCompLayer : Layer :=
  ⟨[⟨PROP_FB_DAMAGE_CLIPS, 5, 0⟩], false, false, FBInfo.zero, FBInfo.zero,
    none, 0, 0⟩

/-- A PRIMARY plane with mutable FB_ID and CRTC_ID, for the compatibility
witness. -/
def samplePrimPlane : Plane :=
  ⟨1, DRM_PLANE_TYPE_PRIMARY, 0, 1, none,
    [⟨PROP_FB_ID, 20, dpropFree⟩, ⟨PROP_CRTC_ID, 21, dpropFree⟩], none⟩

/-- Witness for c7_composition_primary: the compatibility direction at a
concrete context whose composition layer is layer 0 on a PRIMARY plane,
and the apply direction on the concrete reuse-path state. -/
theorem c7_composition_primary_witness :
    ((result_init sampleCompState (fun _ => true)).comp_layer = some 0 ∧
      layer_plane_compatible_get (result_init sampleCompState (fun _ => true))
        alloc_step_init 0 sampleCompLayer samplePrimPlane = true ∧
      samplePrimPlane.type = DRM_PLANE_TYPE_PRIMARY) ∧
    (comp_bound_primary sampleCompState = true ∧
      (liftoff_rpi_output_apply (fun _ _ => true) (fun _ => none)
        sampleCompState [] 0).1 = 0 ∧
      comp_bound_primary (liftoff_rpi_output_apply (fun _ _ => true)
        (fun _ => none) sampleCompState [] 0).2.1 = true) :=
  ⟨⟨by decide, by decide,
    c7_composition_primary.1 (result_init sampleCompState (fun _ => true))
      alloc_step_init 0 sampleCompLayer samplePrimPlane (by decide)
      (by decide)⟩,
   ⟨by decide, by decide,
    c7_composition_primary.2 (fun _ _ => true) (fun _ => none)
      sampleCompState [] 0 (by decide) (by decide)⟩⟩

end Liftoff
